import Mathlib

/-!
Verification development for the analysis-job orchestrator server
(`src/server/src`): URL canonicalization and the SSRF security gate
(`utils/hash.ts` bundle), the Gemini retry wrapper and legal-analysis
response parsing (`services/analysis.service.ts`, gemini section), the
multi-document merge (`analyzeMultipleLegalDocuments`), and the job
store / orchestrator (`createAnalysisJob`, `processAnalysisJob`,
`processScanJob`).

The JavaScript code is shallowly embedded: JSON columns and provider
payloads are explicit structures, the Prisma job table is a list of job
records plus an id counter, `Date.now()` is an explicit `now : Int`
parameter, and the two unreliable providers (content fetcher, Gemini)
are explicit outcome parameters.  JS builtins (`String.prototype`
methods, `URLSearchParams.sort`, `Array.prototype.sort`) are modelled
by their specified behaviour on the data in play.
-/

/-! ## JS string builtins -/

/-- Contiguous-substring test on char lists (haystack first). -/
def listContainsSeq : List Char → List Char → Bool
  | [], needle => needle.isEmpty
  | c :: t, needle => needle.isPrefixOf (c :: t) || listContainsSeq t needle

/-- JS `String.prototype.includes(sub)`: substring test. -/
def jsIncludes (s sub : String) : Bool :=
  listContainsSeq s.toList sub.toList

/-- JS `String.prototype.startsWith(pre)`. -/
def jsStartsWith (s pre : String) : Bool :=
  pre.toList.isPrefixOf s.toList

/-- JS `String.prototype.toLowerCase()` (ASCII range, which is all the
source ever compares against). -/
def jsToLower (s : String) : String :=
  ⟨s.toList.map Char.toLower⟩

/-- JS `String.prototype.endsWith(suf)`. -/
def jsEndsWith (s suf : String) : Bool :=
  suf.toList.isSuffixOf s.toList

/-! ## URL model

A parsed WHATWG `URL` object, holding exactly the components the code
under `src/server/src/utils` reads or writes.  `protocol` includes the
trailing colon (as in JS), `hash` includes the leading `#` when
non-empty, and `searchParams` is the ordered key/value list. -/

structure URLObj where
  protocol : String
  hostname : String
  port : String
  pathname : String
  searchParams : List (String × String)
  hash : String
deriving DecidableEq, Repr

/-- `pathname.replace(/\/$/, '')`: the regex strips a single trailing
slash (at most one, since `$` anchors a single match). -/
def stripOneTrailingSlash (p : String) : String :=
  match p.toList.reverse with
  | c :: r => if c = '/' then ⟨r.reverse⟩ else p
  | [] => p

/-- `urlObj.pathname = urlObj.pathname.replace(/\/$/, '') || '/'`. -/
def normalizePathname (p : String) : String :=
  let s := stripOneTrailingSlash p
  if s = "" then "/" else s

/-- `URLSearchParams.sort()`: stable sort by parameter name (insertion
sort is stable, matching the ECMAScript requirement). -/
def sortSearchParams (ps : List (String × String)) : List (String × String) :=
  List.insertionSort (fun a b => a.1 ≤ b.1) ps

/-- `normalizeUrl` from `utils/hash.ts` (dedup canonicalization): strip
one trailing slash from the path (root path becomes `/`), lower-case the
hostname, drop the fragment, sort the query parameters. -/
def normalizeUrl (u : URLObj) : URLObj :=
  { u with
    pathname := normalizePathname u.pathname
    hostname := jsToLower u.hostname
    hash := ""
    searchParams := sortSearchParams u.searchParams }

/-- `URL.prototype.toString()` serialization for the components in the
model (components are assumed already percent-encoded, as the repo only
feeds them through unchanged). -/
def urlToString (u : URLObj) : String :=
  u.protocol ++ "//" ++ u.hostname ++
    (if u.port = "" then "" else ":" ++ u.port) ++
    u.pathname ++
    (match u.searchParams with
     | [] => ""
     | ps => "?" ++ String.intercalate "&" (ps.map (fun kv => kv.1 ++ "=" ++ kv.2))) ++
    u.hash

/-- A pathname whose final two characters are both `/`; on these the
single-slash-stripping regex leaves another trailing slash behind. -/
def hasDoubleTrailingSlash (p : String) : Bool :=
  match p.toList.reverse with
  | c1 :: c2 :: _ => c1 = '/' && c2 = '/'
  | _ => false

/-! ## Security gate (`validateUrlSecurity`) -/

/-- Result record of `validateUrlSecurity`. -/
structure ValidationResult where
  valid : Bool
  reason : Option String
deriving DecidableEq, Repr

/-- The `internalHostnames` substring blacklist. -/
def internalHostnames : List String :=
  [".local", ".internal", ".corp", ".lan", "localhost"]

/-- Digit chars to a number, as JS `Number()` on an all-digit string. -/
def digitsToNat (l : List Char) : Nat :=
  l.foldl (fun acc c => acc * 10 + (c.toNat - 48)) 0

/-- Split a char list at `.` separators (used to model the dotted-quad
regex `^(\d{1,3})\.(\d{1,3})\.(\d{1,3})\.(\d{1,3})$`). -/
def splitOnDot : List Char → List (List Char)
  | [] => [[]]
  | c :: rest =>
    if c = '.' then [] :: splitOnDot rest
    else
      match splitOnDot rest with
      | p :: ps => (c :: p) :: ps
      | [] => [[c]]

/-- `hostname.match(ipv4Regex)`: four groups of 1–3 digits separated by
dots, anchored at both ends; on success the four numeric octets. -/
def parseDottedQuad (s : String) : Option (Nat × Nat × Nat × Nat) :=
  match splitOnDot s.toList with
  | [p1, p2, p3, p4] =>
    if (p1 ≠ [] ∧ p1.length ≤ 3 ∧ p1.all Char.isDigit) ∧
       (p2 ≠ [] ∧ p2.length ≤ 3 ∧ p2.all Char.isDigit) ∧
       (p3 ≠ [] ∧ p3.length ≤ 3 ∧ p3.all Char.isDigit) ∧
       (p4 ≠ [] ∧ p4.length ≤ 3 ∧ p4.all Char.isDigit) then
      some (digitsToNat p1, digitsToNat p2, digitsToNat p3, digitsToNat p4)
    else none
  | _ => none

/-- `validateUrlSecurity` from the security utils: SSRF gate rejecting
non-http(s) protocols, loopback, cloud metadata endpoints, hostnames
containing an internal-network marker, and private/link-local dotted
quads, in exactly that order. -/
def validateUrlSecurity (u : URLObj) : ValidationResult :=
  if u.protocol ≠ "http:" ∧ u.protocol ≠ "https:" then
    { valid := false
      reason := some ("Invalid protocol: " ++ u.protocol ++ ". Only http and https are allowed.") }
  else
    let hostname := jsToLower u.hostname
    if hostname = "localhost" ∨ hostname = "127.0.0.1" ∨ hostname = "::1" ∨
       hostname = "0.0.0.0" ∨ jsStartsWith hostname "127." = true ∨ hostname = "[::1]" then
      { valid := false, reason := some "Localhost and loopback addresses are not allowed" }
    else if hostname = "169.254.169.254" ∨ hostname = "metadata.google.internal" then
      { valid := false, reason := some "Cloud metadata endpoints are not allowed" }
    else if internalHostnames.any (fun i => jsIncludes hostname i) then
      { valid := false, reason := some "Internal hostnames are not allowed" }
    else
      match parseDottedQuad hostname with
      | none => { valid := true, reason := none }
      | some (a, b, c, d) =>
        if a > 255 ∨ b > 255 ∨ c > 255 ∨ d > 255 then
          { valid := false, reason := some "Invalid IP address format" }
        else if a = 10 then
          { valid := false, reason := some "Private IP range (10.0.0.0/8) is not allowed" }
        else if a = 172 ∧ 16 ≤ b ∧ b ≤ 31 then
          { valid := false, reason := some "Private IP range (172.16.0.0/12) is not allowed" }
        else if a = 192 ∧ b = 168 then
          { valid := false, reason := some "Private IP range (192.168.0.0/16) is not allowed" }
        else if a = 169 ∧ b = 254 then
          { valid := false, reason := some "Link-local IP range (169.254.0.0/16) is not allowed" }
        else { valid := true, reason := none }

/-- The disallowed-URL classes named by the spec's Security Gate
contract: bad scheme, loopback/localhost, private or link-local dotted
quad, cloud metadata host, internal-network marker in the hostname. -/
def specDisallowedUrl (u : URLObj) : Prop :=
  (u.protocol ≠ "http:" ∧ u.protocol ≠ "https:")
  ∨ (let h := jsToLower u.hostname
     h = "localhost" ∨ h = "127.0.0.1" ∨ h = "::1" ∨ h = "0.0.0.0" ∨
       jsStartsWith h "127." = true ∨ h = "[::1]")
  ∨ (∃ a b c d, parseDottedQuad (jsToLower u.hostname) = some (a, b, c, d) ∧
       (a = 10 ∨ (a = 172 ∧ 16 ≤ b ∧ b ≤ 31) ∨ (a = 192 ∧ b = 168) ∨ (a = 169 ∧ b = 254)))
  ∨ (jsToLower u.hostname = "169.254.169.254" ∨ jsToLower u.hostname = "metadata.google.internal")
  ∨ (internalHostnames.any (fun i => jsIncludes (jsToLower u.hostname) i) = true)

/-! ## Legal analysis payload (`types/index.ts`) -/

/-- One entry of `LegalAnalysis.risks`. -/
structure LegalRisk where
  id : String
  category : String
  severity : String
  title : String
  description : String
  location : Option String := none
  icon : Option String := none
deriving DecidableEq, Repr

/-- `LegalAnalysis.consentMoment`. -/
structure ConsentMoment where
  pageType : String
  actionDescription : String
  documentsReferenced : Nat
  quickSummary : String
deriving DecidableEq, Repr

/-- One entry of `LegalAnalysis.documents`. -/
structure LegalDocumentInfo where
  type : String
  url : String
  title : String
  detectedAt : String
  confidence : Rat
deriving DecidableEq, Repr

/-- `LegalAnalysis.consentScope`. -/
structure ConsentScope where
  primaryActions : List String
  dataCollected : List String
  servicesCovered : List String
  summary : String
deriving DecidableEq, Repr

/-- `LegalAnalysis.riskSummary`. -/
structure RiskSummary where
  totalRisks : Nat
  highSeverityCount : Nat
  overallAssessment : String
deriving DecidableEq, Repr

/-- One entry of `LegalAnalysis.explanations`. -/
structure Explanation where
  term : String
  plainLanguage : String
  context : String
deriving DecidableEq, Repr

/-- The `LegalAnalysis` interface. -/
structure LegalAnalysis where
  consentMoment : ConsentMoment
  documents : List LegalDocumentInfo
  consentScope : ConsentScope
  risks : List LegalRisk
  riskSummary : RiskSummary
  explanations : Option (List Explanation) := none
  keyPoints : Option (List String) := none
deriving DecidableEq, Repr

/-- `GeminiAnalysis.seoAnalysis`. -/
structure SeoSection where
  strengths : List String
  weaknesses : List String
  recommendations : List String
deriving DecidableEq, Repr

/-- `GeminiAnalysis.contentQuality`. -/
structure ContentQuality where
  score : Rat
  feedback : String
deriving DecidableEq, Repr

/-- The comprehensive (non-legal) `GeminiAnalysis` interface. -/
structure GeminiAnalysis where
  summary : String
  businessType : String
  targetAudience : String
  keyServices : List String
  uniqueSellingPoints : List String
  toneAndVoice : String
  seoAnalysis : SeoSection
  contentQuality : ContentQuality
  technicalObservations : List String
  competitorInsights : List String
  actionableRecommendations : List String
deriving DecidableEq, Repr

/-- `EarlyFinding` (progressive disclosure payload). -/
structure EarlyFinding where
  category : String
  severity : String
  title : String
  description : String
  confidence : Rat
  documentUrl : Option String := none
deriving DecidableEq, Repr

/-! ## Multi-document merge (`analyzeMultipleLegalDocuments`) -/

/-- The `riskMap` construction: JS `Map` keyed by `risk.id`, inserting
only when the key is absent; iteration order is insertion order, so the
first occurrence of each id wins and order is otherwise preserved. -/
def dedupeRisksById (risks : List LegalRisk) : List LegalRisk :=
  risks.foldl (fun acc r => if acc.any (fun x => x.id == r.id) then acc else acc ++ [r]) []

/-- JS `Set<string>` accumulation: union keeping first-insertion order. -/
def dedupeStrings (xs : List String) : List String :=
  xs.foldl (fun acc s => if acc.contains s then acc else acc ++ [s]) []

/-- JS `String.prototype.substring(0, n)`. -/
def jsSubstringTo (s : String) (n : Nat) : String :=
  ⟨s.toList.take n⟩

/-- The merge step of `analyzeMultipleLegalDocuments`, as a function of
the per-document results `(analysis, tokensUsed)` collected from
`analyzeLegalDocumentFromUrl`; empty input models the
`urls.length === 0` guard throwing. -/
def analyzeMultipleLegalDocuments (results : List (LegalAnalysis × Nat)) :
    Except String (LegalAnalysis × Nat) :=
  match results with
  | [] => .error "No URLs provided for analysis"
  | first :: _ =>
    let combinedTokens := results.foldl (fun sum a => sum + a.2) 0
    let allDocuments := (results.map (fun a => a.1.documents)).flatten
    let allRisks := dedupeRisksById ((results.map (fun a => a.1.risks)).flatten)
    let totalRisks := allRisks.length
    let highSeverityCount := (allRisks.filter (fun r => r.severity == "high")).length
    let overallAssessment : String :=
      if highSeverityCount ≥ 3 then "high_concern"
      else if highSeverityCount ≥ 1 then "moderate_concern"
      else "low_concern"
    let allPrimaryActions := dedupeStrings ((results.map (fun a => a.1.consentScope.primaryActions)).flatten)
    let allDataCollected := dedupeStrings ((results.map (fun a => a.1.consentScope.dataCollected)).flatten)
    let allServicesCovered := dedupeStrings ((results.map (fun a => a.1.consentScope.servicesCovered)).flatten)
    let baseConsentMoment := first.1.consentMoment
    let allExplanations :=
      ((results.map (fun a => a.1.explanations.getD [])).flatten).foldl
        (fun acc e =>
          if acc.any (fun x => jsToLower x.term == jsToLower e.term) then acc else acc ++ [e]) []
    let allKeyPoints := dedupeStrings ((results.map (fun a => a.1.keyPoints.getD [])).flatten)
    .ok
      ({ consentMoment :=
           { baseConsentMoment with
             documentsReferenced := allDocuments.length
             quickSummary :=
               if allDocuments.length > 1 then
                 "You\x27re agreeing to " ++ toString allDocuments.length ++ " legal documents"
               else baseConsentMoment.quickSummary }
         documents := allDocuments
         consentScope :=
           { primaryActions := allPrimaryActions
             dataCollected := allDataCollected
             servicesCovered := allServicesCovered
             summary :=
               jsSubstringTo (String.intercalate " " (results.map (fun a => a.1.consentScope.summary))) 500 }
         risks := allRisks
         riskSummary :=
           { totalRisks := totalRisks
             highSeverityCount := highSeverityCount
             overallAssessment := overallAssessment }
         explanations := if allExplanations.length > 0 then some allExplanations else none
         keyPoints := if allKeyPoints.length > 0 then some allKeyPoints else none },
       combinedTokens)

/-- The spec's fixed threshold policy for the merged `overallAssessment`,
as a function of the deduplicated high-severity risk count. -/
def specOverallAssessment (highCount : Nat) : String :=
  if highCount ≥ 3 then "high_concern"
  else if highCount ≥ 1 then "moderate_concern"
  else "low_concern"

/-! ## JSON values and Gemini response parsing -/

/-- A parsed JSON value (the result of `JSON.parse` on a provider
response body). -/
inductive JVal where
  | null
  | bool (b : Bool)
  | num (q : Rat)
  | str (s : String)
  | arr (xs : List JVal)
  | obj (fields : List (String × JVal))

/-- JS truthiness of a JSON value (`!x` checks in the validators). -/
def jTruthy : JVal → Bool
  | .null => false
  | .bool b => b
  | .num q => !(q == 0)
  | .str s => !(s == "")
  | .arr _ => true
  | .obj _ => true

/-- JS property access `v[k]`; absent keys and access on non-objects
yield `undefined`, modelled as `null` (identically falsy). -/
def jGet (v : JVal) (k : String) : JVal :=
  match v with
  | .obj fields => ((fields.find? (fun f => f.1 == k)).map (fun f => f.2)).getD .null
  | _ => .null

/-- JS property assignment `v[k] = x` on an object (no-op otherwise). -/
def jSet (v : JVal) (k : String) (x : JVal) : JVal :=
  match v with
  | .obj fields =>
    if fields.any (fun f => f.1 == k) then
      .obj (fields.map (fun f => if f.1 == k then (k, x) else f))
    else .obj (fields ++ [(k, x)])
  | other => other

/-- `Array.isArray`. -/
def jIsArray : JVal → Bool
  | .arr _ => true
  | _ => false

/-- First newline pass of `normalizeNewlines`: `\r\n` and `\r` → `\n`. -/
def crToLF : List Char → List Char
  | [] => []
  | '\r' :: '\n' :: rest => '\n' :: crToLF rest
  | '\r' :: rest => '\n' :: crToLF rest
  | c :: rest => c :: crToLF rest

/-- Second newline pass: collapse runs of 2+ `\n` to one (the flag says
whether the previous emitted char was a newline). -/
def collapseLF : Bool → List Char → List Char
  | _, [] => []
  | prevLF, c :: rest =>
    if c = '\n' then
      if prevLF then collapseLF true rest else '\n' :: collapseLF true rest
    else c :: collapseLF false rest

/-- `normalizeNewlines` from the gemini service. -/
def normalizeNewlines (s : String) : String :=
  ⟨collapseLF false (crToLF s.toList)⟩

mutual

/-- `normalizeNewlinesInObject`: recursively normalize newlines in every
string value. -/
def jNormalizeNewlines : JVal → JVal
  | .null => .null
  | .bool b => .bool b
  | .num q => .num q
  | .str s => .str (normalizeNewlines s)
  | .arr xs => .arr (jNormalizeNewlinesList xs)
  | .obj fields => .obj (jNormalizeNewlinesFields fields)

/-- Array case of `normalizeNewlinesInObject`. -/
def jNormalizeNewlinesList : List JVal → List JVal
  | [] => []
  | v :: rest => jNormalizeNewlines v :: jNormalizeNewlinesList rest

/-- Object case of `normalizeNewlinesInObject`. -/
def jNormalizeNewlinesFields : List (String × JVal) → List (String × JVal)
  | [] => []
  | (k, v) :: rest => (k, jNormalizeNewlines v) :: jNormalizeNewlinesFields rest

end

/-- `parseLegalAnalysisResponse`, taken at the post-`JSON.parse`
boundary: structural schema validation, risk-id defaulting, newline
normalization.  A schema violation is the thrown
`Invalid legal analysis structure` error. -/
def parseLegalAnalysisResponse (parsed : JVal) : Except String JVal :=
  if !(jTruthy (jGet parsed "consentMoment")) ||
     !(jTruthy (jGet (jGet parsed "consentMoment") "pageType")) ||
     !(jTruthy (jGet (jGet parsed "consentMoment") "quickSummary")) ||
     !(jIsArray (jGet parsed "documents")) ||
     !(jTruthy (jGet parsed "consentScope")) ||
     !(jTruthy (jGet (jGet parsed "consentScope") "summary")) ||
     !(jIsArray (jGet parsed "risks")) ||
     !(jTruthy (jGet parsed "riskSummary")) then
    .error "Invalid legal analysis structure - missing required fields"
  else
    let risks :=
      match jGet parsed "risks" with
      | .arr xs => xs
      | _ => []
    let fixedRisks := (risks.enum).map (fun ri =>
      jSet ri.2 "id"
        (if jTruthy (jGet ri.2 "id") then jGet ri.2 "id"
         else .str ("risk-" ++ toString (ri.1 + 1))))
    .ok (jNormalizeNewlines (jSet parsed "risks" (.arr fixedRisks)))

/-! ## Gemini retry wrapper (`analyzeLegalDocument`) -/

/-- Retry budget (`MAX_RETRIES`). -/
def MAX_RETRIES : Nat := 3

/-- Base backoff (`INITIAL_RETRY_DELAY`, milliseconds). -/
def INITIAL_RETRY_DELAY : Nat := 1000

/-- Message of the `GeminiError` thrown when a response body fails
schema validation (the wrap applied by `parseLegalAnalysisResponse`). -/
def geminiParseErrorMsg : String :=
  "Failed to parse legal analysis response from Gemini"

/-- Rate-limit classification of a caught error message. -/
def isRateLimitError (msg : String) : Bool :=
  jsIncludes msg "429" || jsIncludes msg "rate limit" || jsIncludes msg "quota"

/-- Outcome of one Gemini API attempt: either the transport/API call
threw, or it produced a (parsed) JSON response body. -/
inductive GeminiCallOutcome where
  | apiError (msg : String)
  | response (body : JVal)

/-- What the `try` block of one loop iteration produces: the analysis,
or the message of the thrown error (API failure, or parse failure
wrapped as `geminiParseErrorMsg`). -/
def geminiAttempt (outcome : Nat → GeminiCallOutcome) (attempt : Nat) : Except String JVal :=
  match outcome attempt with
  | .apiError msg => .error msg
  | .response body =>
    match parseLegalAnalysisResponse body with
    | .ok analysis => .ok analysis
    | .error _ => .error geminiParseErrorMsg

/-- The `for (attempt = 1; attempt <= MAX_RETRIES; attempt++)` loop of
`analyzeLegalDocument`, accumulating the backoff sleeps it performs.
`fuel` is the number of remaining iterations (initially
`MAX_RETRIES`), `attempt` the 1-based attempt counter. -/
def analyzeLegalDocumentLoop (outcome : Nat → GeminiCallOutcome) :
    Nat → Nat → List Nat → Option JVal × List Nat
  | 0, _, sleeps => (none, sleeps)
  | fuel + 1, attempt, sleeps =>
    match geminiAttempt outcome attempt with
    | .ok analysis => (some analysis, sleeps)
    | .error msg =>
      let isRateLimit := isRateLimitError msg
      if isRateLimit && decide (attempt < MAX_RETRIES) then
        analyzeLegalDocumentLoop outcome fuel (attempt + 1)
          (sleeps ++ [INITIAL_RETRY_DELAY * 2 ^ attempt * 2])
      else if decide (attempt < MAX_RETRIES) && !isRateLimit then
        analyzeLegalDocumentLoop outcome fuel (attempt + 1)
          (sleeps ++ [INITIAL_RETRY_DELAY * 2 ^ (attempt - 1)])
      else (none, sleeps)

/-- `analyzeLegalDocument`: run the retry loop; `none` models the final
`GeminiError` thrown after all attempts failed.  The second component
is the sequence of backoff sleeps performed, in order. -/
def analyzeLegalDocument (outcome : Nat → GeminiCallOutcome) : Option JVal × List Nat :=
  analyzeLegalDocumentLoop outcome MAX_RETRIES 1 []

/-- The backoff delay the spec text claims precedes retry `attempt + 1`:
`baseDelay * 2^(attempt-1)`, doubled on a rate-limit signal. -/
def specClaimedDelay (attempt : Nat) (isRateLimit : Bool) : Nat :=
  if isRateLimit then INITIAL_RETRY_DELAY * 2 ^ (attempt - 1) * 2
  else INITIAL_RETRY_DELAY * 2 ^ (attempt - 1)

/-- The backoff delay the code actually uses before retry `attempt + 1`:
the rate-limit branch computes `baseDelay * 2^attempt * 2`, i.e. four
times the non-rate-limit delay. -/
def codeRetryDelay (attempt : Nat) (isRateLimit : Bool) : Nat :=
  if isRateLimit then INITIAL_RETRY_DELAY * 2 ^ attempt * 2
  else INITIAL_RETRY_DELAY * 2 ^ (attempt - 1)

/-! ## Job store model (Prisma `AnalysisJob` table) -/

/-- `AnalysisStatus` enum. -/
inductive AnalysisStatus where
  | PENDING | SCRAPING | ANALYZING | COMPLETED | FAILED
deriving DecidableEq, Repr

/-- `ScanPhase` enum. -/
inductive ScanPhase where
  | SCAN_CREATED | TERMS_DISCOVERED | DOCUMENT_FETCHED | NORMALIZED
  | ANALYZING | SUMMARIZING | COMPLETE | FAILED
deriving DecidableEq, Repr

/-- `SCAN_PHASE_PROGRESS` table. -/
def SCAN_PHASE_PROGRESS : ScanPhase → Nat
  | .SCAN_CREATED => 0
  | .TERMS_DISCOVERED => 5
  | .DOCUMENT_FETCHED => 25
  | .NORMALIZED => 40
  | .ANALYZING => 70
  | .SUMMARIZING => 90
  | .COMPLETE => 100
  | .FAILED => 0

/-- The `analysis` JSON column payload: a legal scan result or a
comprehensive result. -/
inductive StoredAnalysis where
  | legal (a : LegalAnalysis)
  | generic (g : GeminiAnalysis)
deriving DecidableEq, Repr

/-- `ScrapedContent` from the scraper service. -/
structure ScrapedContent where
  url : String
  title : String
  description : String
  content : String
  wordCount : Nat
  scrapedAt : Int
deriving DecidableEq, Repr

/-- The `scrapedContent` JSON column: optionally the scraped payload,
optionally a `_metadata.additionalUrls` list (the create path stores
only the metadata; the scan fetch phase stores both). -/
structure StoredScrape where
  scraped : Option ScrapedContent := none
  additionalUrls : Option (List String) := none
deriving DecidableEq, Repr

/-- One row of the `analysisJob` table. -/
structure AnalysisJob where
  id : Nat
  url : String
  normalizedUrl : String
  analysisType : String
  status : AnalysisStatus
  scrapedContent : Option StoredScrape := none
  analysis : Option StoredAnalysis := none
  errorMessage : Option String := none
  tokensUsed : Option Nat := none
  processingMs : Option Int := none
  createdAt : Int
  completedAt : Option Int := none
  currentPhase : Option ScanPhase := none
  lastCompletedPhase : Option ScanPhase := none
  phaseTimestamps : List (ScanPhase × Int) := []
  progressPercent : Option Nat := none
  earlyFindings : Option (List EarlyFinding) := none
  contentHash : Option String := none
  idempotencyKey : Option String := none
deriving DecidableEq, Repr

/-- The job store: rows in insertion order plus the id sequence. -/
structure Database where
  jobs : List AnalysisJob
  nextId : Nat
deriving DecidableEq, Repr

/-- JS truthiness of an optional string (`if (s) ...`): present and
non-empty. -/
def jsTruthyStr : Option String → Bool
  | some s => !(s == "")
  | none => false

/-- `contentHash` (`utils/hash.ts`): SHA-256 hex digest.  A
cryptographic hash has no shallow embedding; it is modelled as an
injective deterministic digest (the identity), which preserves the
properties the orchestrator relies on: determinism, and distinct inputs
giving distinct keys. -/
def contentHash (input : String) : String :=
  "sha256:" ++ input

/-- `buildScanIdempotencyKey`: digest of the sorted page/document URL
set joined with `|`, plus the content hash when truthy. -/
def buildScanIdempotencyKey (pageUrl : String) (documentUrls : List String)
    (contentHashValue : Option String) : String :=
  let normalized :=
    String.intercalate "|" (List.insertionSort (fun a b => a ≤ b) (pageUrl :: documentUrls))
  let withHash :=
    match contentHashValue with
    | some h => if h ≠ "" then normalized ++ "|" ++ h else normalized
    | none => normalized
  contentHash withHash

/-- The 7-day freshness window in milliseconds. -/
def SEVEN_DAYS_MS : Int := 7 * 24 * 60 * 60 * 1000

/-- The `where` clause of `getRecentAnalysis`: same canonical URL,
`COMPLETED`, completed within the window, and matching `contentHash`
when a truthy one was supplied. -/
def matchesRecentQuery (normalizedUrl : String) (contentHashValue : Option String)
    (sevenDaysAgo : Int) (j : AnalysisJob) : Bool :=
  j.normalizedUrl == normalizedUrl &&
  j.status == AnalysisStatus.COMPLETED &&
  (match j.completedAt with
   | some t => sevenDaysAgo ≤ t
   | none => false) &&
  (if jsTruthyStr contentHashValue then j.contentHash == contentHashValue else true)

/-- `findFirst` with `orderBy: completedAt desc`: the first row carrying
the maximal completion timestamp. -/
def findFirstByCompletedAtDesc (rows : List AnalysisJob) : Option AnalysisJob :=
  rows.foldl
    (fun best j =>
      match best with
      | none => some j
      | some b => if b.completedAt.getD 0 < j.completedAt.getD 0 then some j else best)
    none

/-- `getRecentAnalysis`: most recent fresh completed job for a canonical
URL (optionally content-hash matched). -/
def getRecentAnalysis (db : Database) (normalizedUrl : String)
    (contentHashValue : Option String) (now : Int) : Option AnalysisJob :=
  findFirstByCompletedAtDesc
    (db.jobs.filter (matchesRecentQuery normalizedUrl contentHashValue (now - SEVEN_DAYS_MS)))

/-- `CreateAnalysisJobOptions`. -/
structure CreateAnalysisJobOptions where
  contentHash : Option String := none
  idempotencyKey : Option String := none
deriving DecidableEq, Repr

/-- Return value of `createAnalysisJob`. -/
structure CreateJobResult where
  jobId : Nat
  status : AnalysisStatus
  isCached : Bool
deriving DecidableEq, Repr

/-- The fresh row inserted by `createAnalysisJob` on a miss (`jobData`
assembly plus `prisma.analysisJob.create`). -/
def mkNewJob (id : Nat) (now : Int) (url normalizedUrl analysisType : String)
    (additionalUrls : Option (List String)) (contentHashValue idempotencyKey : Option String) :
    AnalysisJob :=
  { id := id
    url := url
    normalizedUrl := normalizedUrl
    analysisType := analysisType
    status := .PENDING
    scrapedContent :=
      match additionalUrls with
      | some us => if us.length > 1 then some { additionalUrls := some us } else none
      | none => none
    createdAt := now
    currentPhase := if analysisType = "legal" then some .SCAN_CREATED else none
    phaseTimestamps := if analysisType = "legal" then [(.SCAN_CREATED, now)] else []
    progressPercent := if analysisType = "legal" then some (SCAN_PHASE_PROGRESS .SCAN_CREATED) else none
    contentHash :=
      if analysisType = "legal" ∧ jsTruthyStr contentHashValue then contentHashValue else none
    idempotencyKey :=
      if analysisType = "legal" ∧ jsTruthyStr idempotencyKey then idempotencyKey else none }

/-- The `documentUrls` set assembled by `createAnalysisJob`. -/
def docUrlSet (url : String) (additionalUrls : Option (List String)) : List String :=
  match additionalUrls with
  | some us => if us.length > 0 then url :: us.filter (fun u => u ≠ url) else [url]
  | none => [url]

/-- The idempotency key used by `createAnalysisJob`: the explicit one
when supplied (`??`), otherwise the derived digest for legal scans. -/
def computedIdemKey (url : String) (additionalUrls : Option (List String))
    (analysisType : String) (options : CreateAnalysisJobOptions) : Option String :=
  match options.idempotencyKey with
  | some k => some k
  | none =>
    if analysisType = "legal" then
      some (buildScanIdempotencyKey url (docUrlSet url additionalUrls) options.contentHash)
    else none

/-- The idempotency lookup (`findUnique` on the unique `idempotencyKey`
column), guarded by `analysisType === 'legal' && idempotencyKey`. -/
def keyLookup (db : Database) (analysisType : String) (key : Option String) :
    Option AnalysisJob :=
  if analysisType = "legal" ∧ jsTruthyStr key then
    match key with
    | some k => db.jobs.find? (fun j => j.idempotencyKey == some k)
    | none => none
  else none

/-- The `verifyCached` re-read: find the row by id, still inside the
freshness window. -/
def verifyCachedLookup (db : Database) (rid : Nat) (now : Int) : Option AnalysisJob :=
  db.jobs.find? (fun j =>
    j.id == rid &&
    (match j.completedAt with
     | some t => now - SEVEN_DAYS_MS ≤ t
     | none => false))

/-- The cache resolution of `createAnalysisJob`: `getRecentAnalysis`
followed by the `verifyCached` window re-check. -/
def cacheLookup (db : Database) (normalizedUrl : String) (contentHashValue : Option String)
    (now : Int) : Option AnalysisJob :=
  match getRecentAnalysis db normalizedUrl contentHashValue now with
  | some recent =>
    match verifyCachedLookup db recent.id now with
    | some _ => some recent
    | none => none
  | none => none

/-- Result returned by `createAnalysisJob` for an idempotency-key hit. -/
def existingScanResult (existing : AnalysisJob) : CreateJobResult :=
  { jobId := existing.id
    status :=
      if existing.currentPhase == some ScanPhase.COMPLETE then AnalysisStatus.COMPLETED
      else if existing.status == AnalysisStatus.FAILED then AnalysisStatus.FAILED
      else existing.status
    isCached := existing.currentPhase == some ScanPhase.COMPLETE }

/-- `createAnalysisJob`: idempotency-key lookup for legal scans, then
freshness-window cache lookup (with the re-verification read), then
insertion of a fresh `PENDING` job. -/
def createAnalysisJob (db : Database) (now : Int) (url normalizedUrl analysisType : String)
    (additionalUrls : Option (List String)) (options : CreateAnalysisJobOptions) :
    CreateJobResult × Database :=
  let idempotencyKey := computedIdemKey url additionalUrls analysisType options
  match keyLookup db analysisType idempotencyKey with
  | some existing => (existingScanResult existing, db)
  | none =>
    match cacheLookup db normalizedUrl options.contentHash now with
    | some recent => ({ jobId := recent.id, status := recent.status, isCached := true }, db)
    | none =>
      let j := mkNewJob db.nextId now url normalizedUrl analysisType additionalUrls
        options.contentHash idempotencyKey
      ({ jobId := j.id, status := .PENDING, isCached := false },
       { jobs := db.jobs ++ [j], nextId := db.nextId + 1 })

/-! ## Orchestrator (`processAnalysisJob` / `processScanJob`) -/

/-- Outcomes of the external providers during one invocation of the
orchestrator, plus the clock readings it records. -/
structure ProcessEnv where
  scrape : Except String ScrapedContent
  legalResult : Except String (LegalAnalysis × Nat)
  geminiResult : Except String (GeminiAnalysis × Nat)
  now : Int
  elapsedMs : Int
deriving Repr

/-- `setPhaseTimestamp`: spread-merge `{...ts, [phase]: now}` (replace
the key when present, append otherwise). -/
def setPhaseTimestamp (ts : List (ScanPhase × Int)) (phase : ScanPhase) (now : Int) :
    List (ScanPhase × Int) :=
  if ts.any (fun p => p.1 == phase) then
    ts.map (fun p => if p.1 == phase then (phase, now) else p)
  else ts ++ [(phase, now)]

/-- `risksToEarlyFindings`. -/
def risksToEarlyFindings (risks : List LegalRisk) (documentUrl : Option String) :
    List EarlyFinding :=
  risks.map (fun r =>
    { category := r.category
      severity := r.severity
      title := r.title
      description := r.description
      confidence := (9 : Rat) / 10
      documentUrl := documentUrl })

/-- The `catch` block of `processAnalysisJob`: mark the job `FAILED`
with the error message; for legal scans also pin `currentPhase` to
`FAILED` and preserve `lastCompletedPhase`. -/
def failJob (env : ProcessEnv) (j : AnalysisJob) (msg : String) : AnalysisJob :=
  if j.analysisType = "legal" then
    { j with
      status := .FAILED
      errorMessage := some msg
      processingMs := some env.elapsedMs
      currentPhase := some ScanPhase.FAILED
      lastCompletedPhase := j.currentPhase }
  else
    { j with status := .FAILED, errorMessage := some msg, processingMs := some env.elapsedMs }

/-- `processScanJob`: the forward-only resumable scan state machine.
`.error (msg, j)` models an exception escaping to the caller's `catch`
with the job record in state `j` at the moment of the throw. -/
def processScanJob (env : ProcessEnv) (job : AnalysisJob) :
    Except (String × AnalysisJob) AnalysisJob :=
  let phase0 := job.currentPhase.getD ScanPhase.SCAN_CREATED
  if phase0 = ScanPhase.COMPLETE ∨ phase0 = ScanPhase.FAILED then .ok job
  else
    let stepA : AnalysisJob × ScanPhase :=
      if phase0 = ScanPhase.SCAN_CREATED then
        ({ job with
            currentPhase := some .TERMS_DISCOVERED
            phaseTimestamps := setPhaseTimestamp job.phaseTimestamps .TERMS_DISCOVERED env.now
            progressPercent := some (SCAN_PHASE_PROGRESS .TERMS_DISCOVERED) },
         ScanPhase.TERMS_DISCOVERED)
      else (job, phase0)
    let job1 := stepA.1
    let phase1 := stepA.2
    let allUrls :=
      match job.scrapedContent.bind (fun s => s.additionalUrls) with
      | some us => if us.length > 0 then job.url :: us.filter (fun u => u ≠ job.url) else [job.url]
      | none => [job.url]
    let fetched : Except (String × AnalysisJob) (AnalysisJob × ScanPhase) :=
      if phase1 = ScanPhase.TERMS_DISCOVERED then
        match env.scrape with
        | .error msg => .error (msg, job1)
        | .ok sc =>
          .ok ({ job1 with
                  scrapedContent := some { scraped := some sc, additionalUrls := some allUrls }
                  currentPhase := some .DOCUMENT_FETCHED
                  phaseTimestamps := setPhaseTimestamp job1.phaseTimestamps .DOCUMENT_FETCHED env.now
                  progressPercent := some (SCAN_PHASE_PROGRESS .DOCUMENT_FETCHED) },
               ScanPhase.DOCUMENT_FETCHED)
      else .ok (job1, phase1)
    match fetched with
    | .error e => .error e
    | .ok (job2, phase2) =>
      let stepC : AnalysisJob × ScanPhase :=
        if phase2 = ScanPhase.DOCUMENT_FETCHED then
          ({ job2 with
              currentPhase := some .NORMALIZED
              phaseTimestamps := setPhaseTimestamp job2.phaseTimestamps .NORMALIZED env.now
              progressPercent := some (SCAN_PHASE_PROGRESS .NORMALIZED) },
           ScanPhase.NORMALIZED)
        else (job2, phase2)
      let job3 := stepC.1
      let phase3 := stepC.2
      if phase3 = ScanPhase.NORMALIZED then
        let job4 :=
          { job3 with
            currentPhase := some .ANALYZING
            phaseTimestamps := setPhaseTimestamp job3.phaseTimestamps .ANALYZING env.now
            progressPercent := some (SCAN_PHASE_PROGRESS .ANALYZING) }
        match env.legalResult with
        | .error msg => .error (msg, job4)
        | .ok res =>
          let earlyFindings := risksToEarlyFindings res.1.risks none
          let job5 :=
            { job4 with
              earlyFindings := some earlyFindings
              currentPhase := some .SUMMARIZING
              phaseTimestamps := setPhaseTimestamp job4.phaseTimestamps .SUMMARIZING env.now
              progressPercent := some (SCAN_PHASE_PROGRESS .SUMMARIZING) }
          .ok { job5 with
                status := .COMPLETED
                analysis := some (.legal res.1)
                tokensUsed := some res.2
                processingMs := some env.elapsedMs
                completedAt := some env.now
                currentPhase := some .COMPLETE
                phaseTimestamps := setPhaseTimestamp job5.phaseTimestamps .COMPLETE env.now
                progressPercent := some (SCAN_PHASE_PROGRESS .COMPLETE) }
      else .ok job3

/-- `processAnalysisJob`: dispatch legal scans to `processScanJob`
(converting an escaping exception into the `FAILED` update), and run
the legacy `PENDING → SCRAPING → ANALYZING → COMPLETED` flow
otherwise. -/
def processAnalysisJob (env : ProcessEnv) (job : AnalysisJob) : AnalysisJob :=
  if job.analysisType = "legal" then
    match processScanJob env job with
    | .ok j => j
    | .error e => failJob env e.2 e.1
  else if job.status ≠ AnalysisStatus.PENDING then job
  else
    let job1 := { job with status := AnalysisStatus.SCRAPING }
    match env.scrape with
    | .error msg => failJob env job1 msg
    | .ok sc =>
      let job2 := { job1 with scrapedContent := some { scraped := some sc, additionalUrls := none } }
      let job3 := { job2 with status := AnalysisStatus.ANALYZING }
      match env.geminiResult with
      | .error msg => failJob env job3 msg
      | .ok res =>
        { job3 with
          status := .COMPLETED
          analysis := some (.generic res.1)
          tokensUsed := some res.2
          processingMs := some env.elapsedMs
          completedAt := some env.now }

/-! ## Route (`POST /api/analyze`) -/

/-- A validated request body, with its URLs in parsed form. -/
structure AnalyzeRequestModel where
  url : URLObj
  urls : Option (List URLObj) := none
  analysisType : String := "comprehensive"
  idempotencyKey : Option String := none
  contentHash : Option String := none

/-- The `urlsToAnalyze` selection of the create route. -/
def routeUrlsToAnalyze (req : AnalyzeRequestModel) : List URLObj :=
  match req.urls with
  | some us => if req.analysisType = "legal" ∧ us.length > 0 then us else [req.url]
  | none => [req.url]

/-- The create route up to job creation: run the security gate over
every URL (`assertUrlSecurity` throwing on the first invalid one), then
canonicalize and call `createAnalysisJob`.  The returned database is
unchanged whenever the gate throws. -/
def createAnalyzeRoute (db : Database) (now : Int) (req : AnalyzeRequestModel) :
    Except String CreateJobResult × Database :=
  let urlsToAnalyze := routeUrlsToAnalyze req
  match urlsToAnalyze with
  | [] => (.error "At least one URL is required", db)
  | primaryUrl :: _ =>
    match urlsToAnalyze.find? (fun u => !(validateUrlSecurity u).valid) with
    | some bad => (.error ((validateUrlSecurity bad).reason.getD "URL security validation failed"), db)
    | none =>
      let normalizedUrl := urlToString (normalizeUrl primaryUrl)
      let r := createAnalysisJob db now (urlToString primaryUrl) normalizedUrl req.analysisType
        (if urlsToAnalyze.length > 1 then some (urlsToAnalyze.map urlToString) else none)
        { idempotencyKey := req.idempotencyKey, contentHash := req.contentHash }
      (.ok r.1, r.2)

/-! ## Spec-level predicates -/

/-- A job in a terminal state: for legal scans a terminal `currentPhase`
(`COMPLETE`/`FAILED`), for the legacy flow a terminal `status`. -/
def terminalJob (j : AnalysisJob) : Prop :=
  (j.analysisType = "legal" ∧
    (j.currentPhase = some ScanPhase.COMPLETE ∨ j.currentPhase = some ScanPhase.FAILED))
  ∨ (j.analysisType ≠ "legal" ∧
    (j.status = AnalysisStatus.COMPLETED ∨ j.status = AnalysisStatus.FAILED))

/-- The spec's result/error invariant: `analysis` non-null iff the
success terminal status, `errorMessage` non-null iff the failure
terminal status, never both. -/
def resultErrorInvariant (j : AnalysisJob) : Prop :=
  (j.analysis.isSome = true ↔ j.status = AnalysisStatus.COMPLETED) ∧
  (j.errorMessage.isSome = true ↔ j.status = AnalysisStatus.FAILED) ∧
  ¬(j.analysis.isSome = true ∧ j.errorMessage.isSome = true)

/-- Auxiliary strengthening used to make the invariant inductive: for
legal jobs the terminal phase and terminal status coincide. -/
def phaseStatusAligned (j : AnalysisJob) : Prop :=
  j.analysisType = "legal" →
    ((j.currentPhase = some ScanPhase.COMPLETE ↔ j.status = AnalysisStatus.COMPLETED) ∧
     (j.currentPhase = some ScanPhase.FAILED ↔ j.status = AnalysisStatus.FAILED))

/-! ## Concrete fixtures used by witnesses and counterexamples -/

/-- Sample scraped payload. -/
def wScrape : ScrapedContent :=
  { url := "https://example.com/terms"
    title := "Terms"
    description := "Terms of service"
    content := "You agree to arbitration."
    wordCount := 4
    scrapedAt := 0 }

/-- Sample legal risk with high severity. -/
def wRisk (i : Nat) : LegalRisk :=
  { id := "risk-" ++ toString i
    category := "arbitration"
    severity := "high"
    title := "Arbitration clause"
    description := "Disputes go to arbitration."
    location := none
    icon := some "gavel" }

/-- Sample legal analysis carrying `n` distinct high-severity risks. -/
def wLegalAnalysis (n : Nat) : LegalAnalysis :=
  { consentMoment :=
      { pageType := "signup"
        actionDescription := "Create an account"
        documentsReferenced := 1
        quickSummary := "You are creating an account." }
    documents :=
      [{ type := "terms_of_service"
         url := "https://example.com/terms"
         title := "Terms"
         detectedAt := "2026-01-01T00:00:00Z"
         confidence := 1 }]
    consentScope :=
      { primaryActions := ["account_creation"]
        dataCollected := ["email"]
        servicesCovered := ["core_service"]
        summary := "You agree to the terms." }
    risks := (List.range n).map wRisk
    riskSummary :=
      { totalRisks := n
        highSeverityCount := n
        overallAssessment := "high_concern" }
    explanations := none
    keyPoints := none }

/-- Sample comprehensive analysis. -/
def wGeminiAnalysis : GeminiAnalysis :=
  { summary := "A website."
    businessType := "SaaS"
    targetAudience := "Developers"
    keyServices := ["hosting"]
    uniqueSellingPoints := ["fast"]
    toneAndVoice := "casual"
    seoAnalysis := { strengths := [], weaknesses := [], recommendations := [] }
    contentQuality := { score := 7, feedback := "ok" }
    technicalObservations := []
    competitorInsights := []
    actionableRecommendations := [] }

/-- Environment where both providers fail. -/
def wEnvFail : ProcessEnv :=
  { scrape := .error "fetch failed"
    legalResult := .error "Gemini down"
    geminiResult := .error "Gemini down"
    now := 1000
    elapsedMs := 5 }

/-- Environment where both providers succeed. -/
def wEnvOk : ProcessEnv :=
  { scrape := .ok wScrape
    legalResult := .ok (wLegalAnalysis 2, 42)
    geminiResult := .ok (wGeminiAnalysis, 42)
    now := 1000
    elapsedMs := 5 }

/-- A legal job already in the `COMPLETE` terminal phase. -/
def wTerminalJob : AnalysisJob :=
  { id := 7
    url := "https://example.com/"
    normalizedUrl := "https://example.com/"
    analysisType := "legal"
    status := .COMPLETED
    analysis := some (.legal (wLegalAnalysis 2))
    createdAt := 0
    completedAt := some 100
    currentPhase := some .COMPLETE
    progressPercent := some 100
    idempotencyKey := some "k1" }

/-- An empty job store. -/
def wDb : Database := { jobs := [], nextId := 0 }

/-- A benign public URL. -/
def wUrlOk : URLObj :=
  { protocol := "https:"
    hostname := "example.com"
    port := ""
    pathname := "/terms"
    searchParams := []
    hash := "" }

/-- A private-range URL (`https://10.1.2.3/`). -/
def wUrlPrivate : URLObj :=
  { protocol := "https:"
    hostname := "10.1.2.3"
    port := ""
    pathname := "/"
    searchParams := []
    hash := "" }

/-- A public hostname that merely contains the substring `localhost`
(`https://a.localize.com` does not, but `my.localhost.example.com`
does via `localhost`; `a.lanterns.com` contains `.lan`). -/
def wUrlLanterns : URLObj :=
  { protocol := "https:"
    hostname := "a.lanterns.com"
    port := ""
    pathname := "/"
    searchParams := []
    hash := "" }

/-- The literal loopback hostname, which also contains the internal
marker substring `localhost`. -/
def wUrlLocalhost : URLObj :=
  { protocol := "https:"
    hostname := "localhost"
    port := ""
    pathname := "/"
    searchParams := []
    hash := "" }

/-- URL whose path ends in a double slash — `normalizeUrl` is not
idempotent on it. -/
def wUrlDoubleSlash : URLObj :=
  { protocol := "https:"
    hostname := "example.com"
    port := ""
    pathname := "/a//"
    searchParams := []
    hash := "" }

/-- Rate-limited outcome on every attempt. -/
def wOutcomeRateLimit : Nat → GeminiCallOutcome := fun _ => .apiError "429"

/-- Outcome failing attempt 1 with a rate-limit signal and attempt 2
with a generic transient error. -/
def wOutcomeMixed : Nat → GeminiCallOutcome := fun a =>
  if a = 1 then .apiError "rate limit exceeded" else .apiError "socket hang up"

/-- Outcome whose every response body fails schema validation. -/
def wOutcomeMalformed : Nat → GeminiCallOutcome := fun _ => .response (JVal.obj [])

/-- Environment whose analysis engine fails with the parse-wrap error. -/
def wEnvParseFail : ProcessEnv :=
  { scrape := .ok wScrape
    legalResult := .error geminiParseErrorMsg
    geminiResult := .error geminiParseErrorMsg
    now := 1000
    elapsedMs := 5 }

/-- A legal scan job resumed at phase `NORMALIZED`. -/
def wScanJobNormalized : AnalysisJob :=
  { id := 3
    url := "https://example.com/terms"
    normalizedUrl := "https://example.com/terms"
    analysisType := "legal"
    status := .PENDING
    createdAt := 0
    currentPhase := some .NORMALIZED
    progressPercent := some 40
    idempotencyKey := some "k3" }

/-- A reference clock instant for cache fixtures. -/
def wNow : Int := 1000000000000

/-- A completed job 2 days old at `wNow`, cacheable for
`https://example.com/terms`. -/
def wRecentJob : AnalysisJob :=
  { id := 11
    url := "https://example.com/terms"
    normalizedUrl := "https://example.com/terms"
    analysisType := "legal"
    status := .COMPLETED
    analysis := some (.legal (wLegalAnalysis 1))
    createdAt := wNow - 172800000
    completedAt := some (wNow - 172800000)
    currentPhase := some .COMPLETE
    progressPercent := some 100
    idempotencyKey := some "other-key" }

/-- Store holding only `wRecentJob`. -/
def wDbRecent : Database := { jobs := [wRecentJob], nextId := 12 }

/-- A legal request for the private-range URL. -/
def wReqPrivate : AnalyzeRequestModel :=
  { url := wUrlPrivate, analysisType := "legal" }

/-- Canonicalization fixture: uppercase-host URL with unsorted query and
a fragment. -/
def wUrlA : URLObj :=
  { protocol := "https:"
    hostname := "Example.com"
    port := ""
    pathname := "/path"
    searchParams := [("b", "2"), ("a", "1")]
    hash := "#frag" }

/-- Same URL as `wUrlA` up to trailing slash, fragment and query
order. -/
def wUrlB : URLObj :=
  { protocol := "https:"
    hostname := "Example.com"
    port := ""
    pathname := "/path/"
    searchParams := [("a", "1"), ("b", "2")]
    hash := "" }

/-- Options carrying an explicit idempotency key. -/
def wOpts : CreateAnalysisJobOptions := { idempotencyKey := some "key-1" }

/-- Options whose key misses every fixture store. -/
def wOptsMiss : CreateAnalysisJobOptions := { idempotencyKey := some "fresh-key" }

/-! ## Theorems -/

theorem processScanJob_terminal (env : ProcessEnv) (j : AnalysisJob)
    (h : j.currentPhase = some ScanPhase.COMPLETE ∨ j.currentPhase = some ScanPhase.FAILED) :
    processScanJob env j = .ok j := by
  unfold processScanJob
  rcases h with h | h <;> simp [h]

/-- C2: once a job is terminal — `COMPLETE`/`FAILED` phase for legal
scans, `COMPLETED`/`FAILED` status for the legacy flow — re-invoking
`processAnalysisJob` is a no-op, under any provider outcomes, and any
sequence of further invocations leaves the job unchanged. -/
theorem terminal_state_absorbing (j : AnalysisJob) (h : terminalJob j) :
    (∀ env : ProcessEnv, processAnalysisJob env j = j) ∧
    (∀ envs : List ProcessEnv, envs.foldl (fun s e => processAnalysisJob e s) j = j) := by
  have hstep : ∀ env : ProcessEnv, processAnalysisJob env j = j := by
    intro env
    unfold processAnalysisJob
    rcases h with ⟨hty, hph⟩ | ⟨hty, hst⟩
    · rw [if_pos hty, processScanJob_terminal env j hph]
    · rw [if_neg hty, if_pos (by rcases hst with hst | hst <;> simp [hst])]
  refine ⟨hstep, ?_⟩
  intro envs
  induction envs with
  | nil => rfl
  | cons e rest ih => simpa [List.foldl, hstep e] using ih

/-- Witness for `terminal_state_absorbing` at a concrete completed scan
job and a concrete invocation sequence. -/
theorem terminal_state_absorbing_witness :
    terminalJob wTerminalJob ∧
      [wEnvFail, wEnvOk].foldl (fun s e => processAnalysisJob e s) wTerminalJob = wTerminalJob := by
  have h : terminalJob wTerminalJob := Or.inl ⟨rfl, Or.inl rfl⟩
  exact ⟨h, (terminal_state_absorbing wTerminalJob h).2 [wEnvFail, wEnvOk]⟩

/-- C5: on any non-empty batch of per-document results, the merged
`overallAssessment` is exactly the spec's fixed threshold policy
applied to the count of high-severity risks that survive
first-occurrence-wins deduplication by risk id; the reported
`highSeverityCount` and `totalRisks` are that count and the
deduplicated risk-list length. -/
theorem merged_overallAssessment_policy (results : List (LegalAnalysis × Nat))
    (h : results ≠ []) :
    ∃ merged tokens,
      analyzeMultipleLegalDocuments results = .ok (merged, tokens) ∧
      merged.riskSummary.overallAssessment =
        specOverallAssessment
          ((dedupeRisksById ((results.map (fun a => a.1.risks)).flatten)).filter
            (fun r => r.severity == "high")).length ∧
      merged.riskSummary.highSeverityCount =
        ((dedupeRisksById ((results.map (fun a => a.1.risks)).flatten)).filter
          (fun r => r.severity == "high")).length ∧
      merged.riskSummary.totalRisks =
        (dedupeRisksById ((results.map (fun a => a.1.risks)).flatten)).length := by
  match results with
  | [] => exact absurd rfl h
  | first :: rest =>
    refine ⟨_, _, rfl, ?_, rfl, rfl⟩
    simp only [analyzeMultipleLegalDocuments, specOverallAssessment]

/-- Witness for `merged_overallAssessment_policy`: one batch with 4
deduplicated high risks merges to `high_concern`. -/
theorem merged_overallAssessment_policy_witness :
    ([(wLegalAnalysis 4, 10)] : List (LegalAnalysis × Nat)) ≠ [] ∧
      ∃ merged tokens,
        analyzeMultipleLegalDocuments [(wLegalAnalysis 4, 10)] = .ok (merged, tokens) ∧
        merged.riskSummary.overallAssessment =
          specOverallAssessment
            ((dedupeRisksById (([(wLegalAnalysis 4, 10)].map (fun a => a.1.risks)).flatten)).filter
              (fun r => r.severity == "high")).length ∧
        merged.riskSummary.highSeverityCount =
          ((dedupeRisksById (([(wLegalAnalysis 4, 10)].map (fun a => a.1.risks)).flatten)).filter
            (fun r => r.severity == "high")).length ∧
        merged.riskSummary.totalRisks =
          (dedupeRisksById (([(wLegalAnalysis 4, 10)].map (fun a => a.1.risks)).flatten)).length :=
  ⟨by simp, merged_overallAssessment_policy [(wLegalAnalysis 4, 10)] (by simp)⟩

/-- C6 counterexample: on a rate-limit failure of attempt 1 the code
sleeps `INITIAL_RETRY_DELAY * 2^1 * 2 = 4000` ms before attempt 2, not
the `baseDelay * 2^(attempt-1) * 2 = 2000` ms the claim states. -/
theorem retry_delay_rate_limit_counterexample :
    geminiAttempt wOutcomeRateLimit 1 = .error "429" ∧
    isRateLimitError "429" = true ∧
    (analyzeLegalDocument wOutcomeRateLimit).2.head? = some 4000 ∧
    specClaimedDelay 1 true = 2000 ∧
    (4000 : Nat) ≠ 2000 :=
  ⟨rfl, by decide, rfl, by decide, by decide⟩

/-- C6 (amended): when attempts 1 and 2 both fail, the two backoff
sleeps are `baseDelay * 2^(attempt-1)` for a non-rate-limit failure and
`baseDelay * 2^attempt * 2` — four times the non-rate-limit delay — for
a rate-limit signal. -/
theorem analyzeLegalDocumentLoop_succ (outcome : Nat → GeminiCallOutcome)
    (fuel attempt : Nat) (sleeps : List Nat) :
    analyzeLegalDocumentLoop outcome (fuel + 1) attempt sleeps =
      match geminiAttempt outcome attempt with
      | .ok analysis => (some analysis, sleeps)
      | .error msg =>
        if isRateLimitError msg && decide (attempt < MAX_RETRIES) then
          analyzeLegalDocumentLoop outcome fuel (attempt + 1)
            (sleeps ++ [INITIAL_RETRY_DELAY * 2 ^ attempt * 2])
        else if decide (attempt < MAX_RETRIES) && !(isRateLimitError msg) then
          analyzeLegalDocumentLoop outcome fuel (attempt + 1)
            (sleeps ++ [INITIAL_RETRY_DELAY * 2 ^ (attempt - 1)])
        else (none, sleeps) := rfl

theorem analyzeLegalDocumentLoop_error_step (outcome : Nat → GeminiCallOutcome)
    (fuel attempt : Nat) (sleeps : List Nat) (msg : String)
    (h : geminiAttempt outcome attempt = .error msg) (hlt : attempt < MAX_RETRIES) :
    analyzeLegalDocumentLoop outcome (fuel + 1) attempt sleeps =
      analyzeLegalDocumentLoop outcome fuel (attempt + 1)
        (sleeps ++ [codeRetryDelay attempt (isRateLimitError msg)]) := by
  rw [analyzeLegalDocumentLoop_succ, h]
  cases hrl : isRateLimitError msg <;>
    simp [hrl, hlt, codeRetryDelay]

/-- C6 (amended): when attempts 1 and 2 both fail, the two backoff
sleeps are `baseDelay * 2^(attempt-1)` for a non-rate-limit failure and
`baseDelay * 2^attempt * 2` — four times the non-rate-limit delay — for
a rate-limit signal. -/
theorem retry_delays_amended (outcome : Nat → GeminiCallOutcome) (m1 m2 : String)
    (h1 : geminiAttempt outcome 1 = .error m1)
    (h2 : geminiAttempt outcome 2 = .error m2) :
    (analyzeLegalDocument outcome).2 =
      [codeRetryDelay 1 (isRateLimitError m1), codeRetryDelay 2 (isRateLimitError m2)] := by
  have step1 := analyzeLegalDocumentLoop_error_step outcome 2 1 [] m1 h1 (by decide)
  have step2 := analyzeLegalDocumentLoop_error_step outcome 1 2
    ([] ++ [codeRetryDelay 1 (isRateLimitError m1)]) m2 h2 (by decide)
  have e : analyzeLegalDocument outcome =
      analyzeLegalDocumentLoop outcome (0 + 1) 3
        (([] ++ [codeRetryDelay 1 (isRateLimitError m1)]) ++
          [codeRetryDelay 2 (isRateLimitError m2)]) := by
    show analyzeLegalDocumentLoop outcome (2 + 1) 1 [] = _
    rw [step1]
    exact step2
  rw [e, analyzeLegalDocumentLoop_succ]
  rcases h3 : geminiAttempt outcome 3 with m3 | v3 <;> simp [MAX_RETRIES]

/-- Witness for `retry_delays_amended`: a rate-limited first attempt and
a generic second failure sleep 4000 ms then 2000 ms. -/
theorem retry_delays_amended_witness :
    (analyzeLegalDocument wOutcomeMixed).2 =
      [codeRetryDelay 1 (isRateLimitError "rate limit exceeded"),
       codeRetryDelay 2 (isRateLimitError "socket hang up")] :=
  retry_delays_amended wOutcomeMixed "rate limit exceeded" "socket hang up" rfl rfl

/-- C7 counterexample: a response body failing schema validation on
every attempt is retried — the loop performs the two backoff sleeps
(1000 ms, 2000 ms) before giving up, rather than surfacing the failure
immediately after the first malformed response. -/
theorem parse_failure_retried_counterexample :
    parseLegalAnalysisResponse (JVal.obj []) =
      .error "Invalid legal analysis structure - missing required fields" ∧
    analyzeLegalDocument wOutcomeMalformed = (none, [1000, 2000]) ∧
    ([1000, 2000] : List Nat) ≠ [] :=
  ⟨rfl, rfl, by decide⟩

/-- C7 (amended): a malformed response body failing schema validation is
treated like any non-rate-limit transient failure: the call is retried
with backoff (1000 ms then 2000 ms) up to `MAX_RETRIES` attempts, and
only after exhausting them does the operation fail, whereupon the
orchestrator marks the job `FAILED` with the surfaced error message. -/
theorem parse_failure_retried_amended (outcome : Nat → GeminiCallOutcome)
    (h : ∀ a, ∃ body, outcome a = .response body ∧
      ∃ e, parseLegalAnalysisResponse body = .error e) :
    analyzeLegalDocument outcome = (none, [1000, 2000]) ∧
    (∀ (env : ProcessEnv) (j : AnalysisJob) (msg : String),
      j.analysisType = "legal" → j.currentPhase = some ScanPhase.NORMALIZED →
      env.legalResult = .error msg →
      (processAnalysisJob env j).status = AnalysisStatus.FAILED ∧
      (processAnalysisJob env j).errorMessage = some msg) := by
  have hatt : ∀ a, geminiAttempt outcome a = .error geminiParseErrorMsg := by
    intro a
    obtain ⟨body, hb, e, he⟩ := h a
    unfold geminiAttempt
    rw [hb]
    simp [he]
  have hrl : isRateLimitError geminiParseErrorMsg = false := by decide
  constructor
  · have step1 := analyzeLegalDocumentLoop_error_step outcome 2 1 [] _ (hatt 1) (by decide)
    have step2 := analyzeLegalDocumentLoop_error_step outcome 1 2
      ([] ++ [codeRetryDelay 1 (isRateLimitError geminiParseErrorMsg)]) _ (hatt 2) (by decide)
    have e3 : analyzeLegalDocument outcome =
        analyzeLegalDocumentLoop outcome (0 + 1) 3
          (([] ++ [codeRetryDelay 1 (isRateLimitError geminiParseErrorMsg)]) ++
            [codeRetryDelay 2 (isRateLimitError geminiParseErrorMsg)]) := by
      show analyzeLegalDocumentLoop outcome (2 + 1) 1 [] = _
      rw [step1]; exact step2
    rw [e3, analyzeLegalDocumentLoop_succ, hatt 3]
    simp [MAX_RETRIES, hrl, codeRetryDelay, INITIAL_RETRY_DELAY]
  · intro env j msg hty hph henv
    have hscan : processScanJob env j =
        .error (msg,
          { j with
            currentPhase := some ScanPhase.ANALYZING
            phaseTimestamps := setPhaseTimestamp j.phaseTimestamps .ANALYZING env.now
            progressPercent := some (SCAN_PHASE_PROGRESS ScanPhase.ANALYZING) }) := by
      unfold processScanJob
      simp [hph, henv]
    unfold processAnalysisJob
    rw [if_pos hty, hscan]
    simp [failJob, hty]

/-- Witness for `parse_failure_retried_amended` at the all-malformed
outcome, a parse-failing environment and a scan job at `NORMALIZED`. -/
theorem parse_failure_retried_amended_witness :
    analyzeLegalDocument wOutcomeMalformed = (none, [1000, 2000]) ∧
    (processAnalysisJob wEnvParseFail wScanJobNormalized).status = AnalysisStatus.FAILED ∧
    (processAnalysisJob wEnvParseFail wScanJobNormalized).errorMessage =
      some geminiParseErrorMsg := by
  have h := parse_failure_retried_amended wOutcomeMalformed
    (fun a => ⟨JVal.obj [], rfl, _, rfl⟩)
  exact ⟨h.1, (h.2 wEnvParseFail wScanJobNormalized geminiParseErrorMsg rfl rfl rfl).1,
    (h.2 wEnvParseFail wScanJobNormalized geminiParseErrorMsg rfl rfl rfl).2⟩

theorem legal_nonterminal_clean (j : AnalysisJob)
    (hinv : resultErrorInvariant j) (hal : phaseStatusAligned j)
    (hty : j.analysisType = "legal")
    (hc : j.currentPhase ≠ some ScanPhase.COMPLETE)
    (hf : j.currentPhase ≠ some ScanPhase.FAILED) :
    j.analysis = none ∧ j.errorMessage = none := by
  obtain ⟨hi1, hi2, _⟩ := hinv
  obtain ⟨ha1, ha2⟩ := hal hty
  constructor
  · rcases hA : j.analysis with _ | v
    · rfl
    · exact absurd (ha1.mpr (hi1.mp (by simp [hA]))) hc
  · rcases hE : j.errorMessage with _ | v
    · rfl
    · exact absurd (ha2.mpr (hi2.mp (by simp [hE]))) hf

theorem processAnalysisJob_preserves (env : ProcessEnv) (j : AnalysisJob)
    (hinv : resultErrorInvariant j) (hal : phaseStatusAligned j) :
    resultErrorInvariant (processAnalysisJob env j) ∧
      phaseStatusAligned (processAnalysisJob env j) := by
  obtain ⟨hi1, hi2, hi3⟩ := hinv
  by_cases hty : j.analysisType = "legal"
  · rcases hph : j.currentPhase with _ | ph
    case pos.none =>
      have hclean := legal_nonterminal_clean j ⟨hi1, hi2, hi3⟩ hal hty
        (by simp [hph]) (by simp [hph])
      rcases hsc : env.scrape with msg | sc
      · unfold processAnalysisJob processScanJob
        simp [hty, hph, hsc, failJob, resultErrorInvariant, phaseStatusAligned,
          hclean.1, hclean.2]
      · rcases hla : env.legalResult with amsg | res
        · unfold processAnalysisJob processScanJob
          simp [hty, hph, hsc, hla, failJob, resultErrorInvariant, phaseStatusAligned,
            hclean.1, hclean.2]
        · unfold processAnalysisJob processScanJob
          simp [hty, hph, hsc, hla, resultErrorInvariant, phaseStatusAligned,
            hclean.1, hclean.2]
    case pos.some =>
      cases ph
      case COMPLETE =>
        have hterm := processScanJob_terminal env j (Or.inl hph)
        unfold processAnalysisJob
        rw [if_pos hty, hterm]
        exact ⟨⟨hi1, hi2, hi3⟩, hal⟩
      case FAILED =>
        have hterm := processScanJob_terminal env j (Or.inr hph)
        unfold processAnalysisJob
        rw [if_pos hty, hterm]
        exact ⟨⟨hi1, hi2, hi3⟩, hal⟩
      all_goals {
        have hclean := legal_nonterminal_clean j ⟨hi1, hi2, hi3⟩ hal hty
          (by simp [hph]) (by simp [hph])
        rcases hsc : env.scrape with msg | sc <;>
        rcases hla : env.legalResult with amsg | res <;>
        · unfold processAnalysisJob processScanJob
          simp [hty, hph, hsc, hla, failJob, resultErrorInvariant, phaseStatusAligned,
            hclean.1, hclean.2, hal hty]
          try exact ⟨fun hC => by rw [(hal hty).1.mpr hC] at hph; simp at hph,
            fun hF => by rw [(hal hty).2.mpr hF] at hph; simp at hph⟩
      }
  · unfold processAnalysisJob
    rw [if_neg hty]
    by_cases hst : j.status = AnalysisStatus.PENDING
    · have ha : j.analysis = none := by
        rcases hA : j.analysis with _ | v
        · rfl
        · rw [hi1.mp (by simp [hA])] at hst; simp at hst
      have he : j.errorMessage = none := by
        rcases hE : j.errorMessage with _ | v
        · rfl
        · rw [hi2.mp (by simp [hE])] at hst; simp at hst
      rw [if_neg (by simp [hst])]
      rcases hsc : env.scrape with msg | sc
      · simp [hsc, failJob, hty, resultErrorInvariant, phaseStatusAligned, ha, he]
      · rcases hg : env.geminiResult with msg | res
        · simp [hsc, hg, failJob, hty, resultErrorInvariant, phaseStatusAligned, ha, he]
        · simp [hsc, hg, hty, resultErrorInvariant, phaseStatusAligned, ha, he]
    · rw [if_pos hst]
      exact ⟨⟨hi1, hi2, hi3⟩, hal⟩

theorem mkNewJob_invariant (id : Nat) (now : Int) (url nu ty : String)
    (add : Option (List String)) (chv ikey : Option String) :
    resultErrorInvariant (mkNewJob id now url nu ty add chv ikey) ∧
      phaseStatusAligned (mkNewJob id now url nu ty add chv ikey) := by
  unfold mkNewJob resultErrorInvariant phaseStatusAligned
  constructor
  · simp
  · intro hty
    simp [hty]

/-- C3: every job inserted by the creation path satisfies, after any
sequence of orchestrator invocations under any provider outcomes:
`analysis` is non-null iff the status is `COMPLETED`, `errorMessage` is
non-null iff the status is `FAILED`, and the two are never both
non-null. -/
theorem result_error_invariant_holds (id : Nat) (now : Int) (url nu ty : String)
    (add : Option (List String)) (chv ikey : Option String) (envs : List ProcessEnv) :
    resultErrorInvariant
      (envs.foldl (fun s e => processAnalysisJob e s) (mkNewJob id now url nu ty add chv ikey)) := by
  have main : ∀ (l : List ProcessEnv) (j : AnalysisJob),
      resultErrorInvariant j → phaseStatusAligned j →
      resultErrorInvariant (l.foldl (fun s e => processAnalysisJob e s) j) ∧
        phaseStatusAligned (l.foldl (fun s e => processAnalysisJob e s) j) := by
    intro l
    induction l with
    | nil => exact fun j h1 h2 => ⟨h1, h2⟩
    | cons e rest ih =>
      intro j h1 h2
      have hp := processAnalysisJob_preserves e j h1 h2
      exact ih _ hp.1 hp.2
  obtain ⟨b1, b2⟩ := mkNewJob_invariant id now url nu ty add chv ikey
  exact (main envs _ b1 b2).1

theorem contentHash_ne_empty (s : String) : contentHash s ≠ "" := by
  intro h
  have hlen := congrArg String.length h
  simp [contentHash] at hlen
  exact absurd hlen.1 (by decide)

theorem jsTruthyStr_some {s : String} (h : s ≠ "") : jsTruthyStr (some s) = true := by
  simp [jsTruthyStr, h]

theorem computedIdemKey_truthy (url : String) (add : Option (List String))
    (opts : CreateAnalysisJobOptions)
    (hk : jsTruthyStr opts.idempotencyKey = true ∨ opts.idempotencyKey = none) :
    jsTruthyStr (computedIdemKey url add "legal" opts) = true := by
  rcases ho : opts.idempotencyKey with _ | k
  · unfold computedIdemKey
    rw [ho]
    simp only [if_pos rfl]
    exact jsTruthyStr_some (contentHash_ne_empty _)
  · unfold computedIdemKey
    rw [ho]
    rcases hk with hk | hk
    · rw [ho] at hk; exact hk
    · rw [ho] at hk; cases hk

/-- C1: for a legal-kind creation request carrying an idempotency key
(an explicit non-empty key, or the derived digest when none is given),
repeating the request against the store produced by the first call
returns the same job id and leaves the store unchanged — no second job
record for the key, whatever the phase or status of the job resolved by
the first call. -/
theorem idempotent_create_legal (db : Database) (now : Int) (url nu : String)
    (add : Option (List String)) (opts : CreateAnalysisJobOptions)
    (hk : jsTruthyStr opts.idempotencyKey = true ∨ opts.idempotencyKey = none) :
    (createAnalysisJob (createAnalysisJob db now url nu "legal" add opts).2
        now url nu "legal" add opts).1.jobId
      = (createAnalysisJob db now url nu "legal" add opts).1.jobId ∧
    (createAnalysisJob (createAnalysisJob db now url nu "legal" add opts).2
        now url nu "legal" add opts).2
      = (createAnalysisJob db now url nu "legal" add opts).2 := by
  have htr : jsTruthyStr (computedIdemKey url add "legal" opts) = true :=
    computedIdemKey_truthy url add opts hk
  obtain ⟨k, hk_eq⟩ : ∃ k, computedIdemKey url add "legal" opts = some k := by
    rcases h : computedIdemKey url add "legal" opts with _ | k
    · rw [h] at htr; simp [jsTruthyStr] at htr
    · exact ⟨k, rfl⟩
  have htr' : jsTruthyStr (some k) = true := by rw [← hk_eq]; exact htr
  rcases h1 : keyLookup db "legal" (some k) with _ | existing
  · rcases h2 : cacheLookup db nu opts.contentHash now with _ | recent
    · -- miss on both lookups: the first call inserts, the second finds it by key
      have hfound : db.jobs.find? (fun j => j.idempotencyKey == some k) = none := by
        unfold keyLookup at h1
        rw [if_pos ⟨rfl, htr'⟩] at h1
        exact h1
      have hnewkey :
          (mkNewJob db.nextId now url nu "legal" add opts.contentHash
            (some k)).idempotencyKey = some k := by
        simp [mkNewJob, htr']
      have hfind2 : keyLookup
          { jobs := db.jobs ++ [mkNewJob db.nextId now url nu "legal" add opts.contentHash
              (some k)], nextId := db.nextId + 1 }
          "legal" (some k) =
          some (mkNewJob db.nextId now url nu "legal" add opts.contentHash (some k)) := by
        unfold keyLookup
        rw [if_pos ⟨rfl, htr'⟩]
        simp [List.find?_append, hfound, hnewkey]
      have hc1 : createAnalysisJob db now url nu "legal" add opts =
          ({ jobId := (mkNewJob db.nextId now url nu "legal" add opts.contentHash (some k)).id
             status := .PENDING
             isCached := false },
           { jobs := db.jobs ++ [mkNewJob db.nextId now url nu "legal" add opts.contentHash
               (some k)], nextId := db.nextId + 1 }) := by
        unfold createAnalysisJob
        simp only [hk_eq, h1, h2]
      have hc2 : createAnalysisJob
          { jobs := db.jobs ++ [mkNewJob db.nextId now url nu "legal" add opts.contentHash
              (some k)], nextId := db.nextId + 1 } now url nu "legal" add opts =
          (existingScanResult (mkNewJob db.nextId now url nu "legal" add opts.contentHash
            (some k)),
           { jobs := db.jobs ++ [mkNewJob db.nextId now url nu "legal" add opts.contentHash
               (some k)], nextId := db.nextId + 1 }) := by
        unfold createAnalysisJob
        simp only [hk_eq, hfind2]
      rw [hc1]
      dsimp only
      rw [hc2]
      simp [existingScanResult, mkNewJob]
    · -- cache hit: the store is unchanged and the second call repeats it
      have hc1 : createAnalysisJob db now url nu "legal" add opts =
          ({ jobId := recent.id, status := recent.status, isCached := true }, db) := by
        unfold createAnalysisJob
        simp only [hk_eq, h1, h2]
      rw [hc1]
      dsimp only
      rw [hc1]
      exact ⟨rfl, rfl⟩
  · -- idempotency hit: the store is unchanged and the second call repeats it
    have hc1 : createAnalysisJob db now url nu "legal" add opts =
        (existingScanResult existing, db) := by
      unfold createAnalysisJob
      simp only [hk_eq, h1]
    rw [hc1]
    dsimp only
    rw [hc1]
    exact ⟨rfl, rfl⟩

/-- Witness for `idempotent_create_legal`: repeating a keyed legal
request on an empty store. -/
theorem idempotent_create_legal_witness :
    (createAnalysisJob (createAnalysisJob wDb wNow "https://example.com/terms"
        "https://example.com/terms" "legal" none wOpts).2
        wNow "https://example.com/terms" "https://example.com/terms" "legal" none wOpts).1.jobId
      = (createAnalysisJob wDb wNow "https://example.com/terms"
          "https://example.com/terms" "legal" none wOpts).1.jobId ∧
    (createAnalysisJob (createAnalysisJob wDb wNow "https://example.com/terms"
        "https://example.com/terms" "legal" none wOpts).2
        wNow "https://example.com/terms" "https://example.com/terms" "legal" none wOpts).2
      = (createAnalysisJob wDb wNow "https://example.com/terms"
          "https://example.com/terms" "legal" none wOpts).2 :=
  idempotent_create_legal wDb wNow "https://example.com/terms" "https://example.com/terms"
    none wOpts (Or.inl (by decide))

theorem findFirst_desc_aux :
    ∀ (rows : List AnalysisJob) (acc : Option AnalysisJob) (r : AnalysisJob),
      rows.foldl (fun best j =>
        match best with
        | none => some j
        | some b => if b.completedAt.getD 0 < j.completedAt.getD 0 then some j else best)
        acc = some r →
      (acc = some r ∨ r ∈ rows) ∧
      (∀ x ∈ rows, x.completedAt.getD 0 ≤ r.completedAt.getD 0) ∧
      (∀ b, acc = some b → b.completedAt.getD 0 ≤ r.completedAt.getD 0)
  | [], acc, r, h => by
    simp only [List.foldl_nil] at h
    exact ⟨Or.inl h, by simp,
      fun b hb => by rw [h] at hb; cases hb; exact le_refl _⟩
  | j :: t, acc, r, h => by
    rw [List.foldl_cons] at h
    cases acc with
    | none =>
      dsimp only at h
      obtain ⟨ih1, ih2, ih3⟩ := findFirst_desc_aux t (some j) r h
      refine ⟨?_, ?_, ?_⟩
      · rcases ih1 with h1 | h1
        · cases h1; exact Or.inr (List.mem_cons_self _ _)
        · exact Or.inr (List.mem_cons_of_mem _ h1)
      · intro x hx
        rcases List.mem_cons.mp hx with rfl | hx
        · exact ih3 x rfl
        · exact ih2 x hx
      · intro b hb
        cases hb
    | some b =>
      dsimp only at h
      by_cases hlt : b.completedAt.getD 0 < j.completedAt.getD 0
      · rw [if_pos hlt] at h
        obtain ⟨ih1, ih2, ih3⟩ := findFirst_desc_aux t (some j) r h
        refine ⟨?_, ?_, ?_⟩
        · rcases ih1 with h1 | h1
          · cases h1; exact Or.inr (List.mem_cons_self _ _)
          · exact Or.inr (List.mem_cons_of_mem _ h1)
        · intro x hx
          rcases List.mem_cons.mp hx with rfl | hx
          · exact ih3 x rfl
          · exact ih2 x hx
        · intro b' hb'
          cases hb'
          exact le_trans (le_of_lt hlt) (ih3 j rfl)
      · rw [if_neg hlt] at h
        obtain ⟨ih1, ih2, ih3⟩ := findFirst_desc_aux t (some b) r h
        refine ⟨?_, ?_, ?_⟩
        · rcases ih1 with h1 | h1
          · exact Or.inl h1
          · exact Or.inr (List.mem_cons_of_mem _ h1)
        · intro x hx
          rcases List.mem_cons.mp hx with rfl | hx
          · exact le_trans (le_of_not_lt hlt) (ih3 b rfl)
          · exact ih2 x hx
        · intro b' hb'
          cases hb'
          exact ih3 b rfl

theorem getRecentAnalysis_spec (db : Database) (nu : String) (chv : Option String) (now : Int)
    (r : AnalysisJob) (h : getRecentAnalysis db nu chv now = some r) :
    r ∈ db.jobs ∧ matchesRecentQuery nu chv (now - SEVEN_DAYS_MS) r = true ∧
    (∀ x ∈ db.jobs, matchesRecentQuery nu chv (now - SEVEN_DAYS_MS) x = true →
      x.completedAt.getD 0 ≤ r.completedAt.getD 0) := by
  unfold getRecentAnalysis findFirstByCompletedAtDesc at h
  obtain ⟨h1, h2, _⟩ := findFirst_desc_aux _ none r h
  rcases h1 with h1 | h1
  · cases h1
  · have hmem := List.mem_filter.mp h1
    refine ⟨hmem.1, hmem.2, ?_⟩
    intro x hx hpx
    exact h2 x (List.mem_filter.mpr ⟨hx, hpx⟩)

/-- C4: on an idempotency-key miss, `createAnalysisJob` returns — as a
cache hit, without touching the store — the most recent job matching
the canonical URL, completed within the 7-day window at the moment of
the check (and matching the content fingerprint when a truthy one is
supplied); when no such job exists it inserts a fresh job in the
initial `PENDING` state. -/
theorem cache_hit_or_fresh_job (db : Database) (now : Int) (url nu ty : String)
    (add : Option (List String)) (opts : CreateAnalysisJobOptions)
    (hmiss : keyLookup db ty (computedIdemKey url add ty opts) = none) :
    (∀ r, getRecentAnalysis db nu opts.contentHash now = some r →
      createAnalysisJob db now url nu ty add opts =
        ({ jobId := r.id, status := r.status, isCached := true }, db) ∧
      r ∈ db.jobs ∧ r.normalizedUrl = nu ∧ r.status = AnalysisStatus.COMPLETED ∧
      (∃ t, r.completedAt = some t ∧ now - SEVEN_DAYS_MS ≤ t) ∧
      (jsTruthyStr opts.contentHash = true → r.contentHash = opts.contentHash) ∧
      (∀ x ∈ db.jobs, matchesRecentQuery nu opts.contentHash (now - SEVEN_DAYS_MS) x = true →
        x.completedAt.getD 0 ≤ r.completedAt.getD 0)) ∧
    (getRecentAnalysis db nu opts.contentHash now = none →
      createAnalysisJob db now url nu ty add opts =
        ({ jobId := db.nextId, status := AnalysisStatus.PENDING, isCached := false },
         { jobs := db.jobs ++ [mkNewJob db.nextId now url nu ty add opts.contentHash
             (computedIdemKey url add ty opts)], nextId := db.nextId + 1 }) ∧
      (mkNewJob db.nextId now url nu ty add opts.contentHash
        (computedIdemKey url add ty opts)).status = AnalysisStatus.PENDING) := by
  constructor
  · intro r hr
    obtain ⟨hmem, hq, hmax⟩ := getRecentAnalysis_spec db nu opts.contentHash now r hr
    have hq' := hq
    simp only [matchesRecentQuery, Bool.and_eq_true, beq_iff_eq] at hq'
    obtain ⟨⟨⟨hnu, hst⟩, hwin⟩, hch⟩ := hq'
    have hwin' : ∃ t, r.completedAt = some t ∧ now - SEVEN_DAYS_MS ≤ t := by
      rcases hca : r.completedAt with _ | t
      · rw [hca] at hwin; cases hwin
      · rw [hca] at hwin
        exact ⟨t, rfl, by exact_mod_cast of_decide_eq_true hwin⟩
    have hver : (verifyCachedLookup db r.id now).isSome = true := by
      rw [verifyCachedLookup, List.find?_isSome]
      refine ⟨r, hmem, ?_⟩
      obtain ⟨t, hts, htw⟩ := hwin'
      simp [hts, htw]
    obtain ⟨x, hx⟩ := Option.isSome_iff_exists.mp hver
    have hcache : cacheLookup db nu opts.contentHash now = some r := by
      unfold cacheLookup
      rw [hr]
      dsimp only
      rw [hx]
    refine ⟨?_, hmem, hnu, hst, hwin', ?_, hmax⟩
    · unfold createAnalysisJob
      simp only [hmiss, hcache]
    · intro htruthy
      rw [if_pos htruthy] at hch
      exact beq_iff_eq.mp hch
  · intro hnone
    have hcache : cacheLookup db nu opts.contentHash now = none := by
      unfold cacheLookup
      rw [hnone]
    constructor
    · unfold createAnalysisJob
      simp only [hmiss, hcache]
      rw [show (mkNewJob db.nextId now url nu ty add opts.contentHash
        (computedIdemKey url add ty opts)).id = db.nextId from rfl]
    · rfl

/-- Witness for `cache_hit_or_fresh_job`: a key-missing legal request
against a store holding a 2-day-old completed job for the same
canonical URL returns it as a cache hit with the store unchanged. -/
theorem cache_hit_or_fresh_job_witness :
    keyLookup wDbRecent "legal"
      (computedIdemKey "https://example.com/terms" none "legal" wOptsMiss) = none ∧
    createAnalysisJob wDbRecent wNow "https://example.com/terms" "https://example.com/terms"
        "legal" none wOptsMiss =
      ({ jobId := wRecentJob.id, status := wRecentJob.status, isCached := true }, wDbRecent) := by
  have hmiss : keyLookup wDbRecent "legal"
      (computedIdemKey "https://example.com/terms" none "legal" wOptsMiss) = none := by decide
  have hr : getRecentAnalysis wDbRecent "https://example.com/terms" wOptsMiss.contentHash wNow =
      some wRecentJob := by decide
  exact ⟨hmiss,
    ((cache_hit_or_fresh_job wDbRecent wNow "https://example.com/terms"
      "https://example.com/terms" "legal" none wOptsMiss hmiss).1 wRecentJob hr).1⟩

/-- C9: every URL in the spec's disallowed classes — non-http(s)
scheme, loopback/localhost, private or link-local dotted quad, cloud
metadata host, internal-network marker in the hostname — is rejected by
`validateUrlSecurity` with a reason string, and the create route
refuses any request containing such a URL without touching the job
store. -/
theorem security_gate_rejects (u : URLObj) (h : specDisallowedUrl u) :
    (validateUrlSecurity u).valid = false ∧
    (validateUrlSecurity u).reason.isSome = true ∧
    (∀ (db : Database) (now : Int) (req : AnalyzeRequestModel),
      u ∈ routeUrlsToAnalyze req →
      (createAnalyzeRoute db now req).2 = db ∧
      ∃ e, (createAnalyzeRoute db now req).1 = .error e) := by
  have hcore : (validateUrlSecurity u).valid = false ∧
      (validateUrlSecurity u).reason.isSome = true := by
    unfold validateUrlSecurity
    split
    · exact ⟨rfl, rfl⟩
    · dsimp only
      split
      · exact ⟨rfl, rfl⟩
      · split
        · exact ⟨rfl, rfl⟩
        · split
          · exact ⟨rfl, rfl⟩
          · next hp hl hm hi =>
            obtain ⟨a, b, c, d, hq, hrange⟩ :
                ∃ a b c d, parseDottedQuad (jsToLower u.hostname) = some (a, b, c, d) ∧
                  (a = 10 ∨ (a = 172 ∧ 16 ≤ b ∧ b ≤ 31) ∨ (a = 192 ∧ b = 168) ∨
                    (a = 169 ∧ b = 254)) := by
              rcases h with h | h | h | h | h
              · exact absurd h hp
              · exact absurd h hl
              · exact h
              · exact absurd h hm
              · exact absurd h hi
            rw [hq]
            dsimp only
            split
            · exact ⟨rfl, rfl⟩
            · rcases hrange with ha | ⟨ha, hb1, hb2⟩ | ⟨ha, hb⟩ | ⟨ha, hb⟩
              · rw [if_pos ha]; exact ⟨rfl, rfl⟩
              · rw [if_neg (by omega), if_pos ⟨ha, hb1, hb2⟩]; exact ⟨rfl, rfl⟩
              · rw [if_neg (by omega), if_neg (by omega), if_pos ⟨ha, hb⟩]; exact ⟨rfl, rfl⟩
              · rw [if_neg (by omega), if_neg (by omega), if_neg (by omega),
                  if_pos ⟨ha, hb⟩]; exact ⟨rfl, rfl⟩
  refine ⟨hcore.1, hcore.2, ?_⟩
  intro db now req hmem
  unfold createAnalyzeRoute
  rcases hurls : routeUrlsToAnalyze req with _ | ⟨p, rest⟩
  · rw [hurls] at hmem; cases hmem
  · rw [hurls] at hmem
    dsimp only
    rcases hfind : (p :: rest).find? (fun v => !(validateUrlSecurity v).valid) with _ | bad
    · exfalso
      have := List.find?_eq_none.mp hfind u hmem
      rw [hcore.1] at this
      exact this rfl
    · exact ⟨rfl, _, rfl⟩

/-- Witness for `security_gate_rejects`: the RFC1918 address
`https://10.1.2.3/` is rejected and creates no job record. -/
theorem security_gate_rejects_witness :
    specDisallowedUrl wUrlPrivate ∧
    (validateUrlSecurity wUrlPrivate).valid = false ∧
    (createAnalyzeRoute wDb wNow wReqPrivate).2 = wDb ∧
    ∃ e, (createAnalyzeRoute wDb wNow wReqPrivate).1 = .error e := by
  have hd : specDisallowedUrl wUrlPrivate :=
    Or.inr (Or.inr (Or.inl ⟨10, 1, 2, 3, by decide, Or.inl rfl⟩))
  have hmem : wUrlPrivate ∈ routeUrlsToAnalyze wReqPrivate := by
    simp [routeUrlsToAnalyze, wReqPrivate]
  have hthm := security_gate_rejects wUrlPrivate hd
  exact ⟨hd, hthm.1, (hthm.2.2 wDb wNow wReqPrivate hmem).1, (hthm.2.2 wDb wNow wReqPrivate hmem).2⟩

/-- C10 counterexample: `localhost` contains the marker substring
`localhost`, yet `validateUrlSecurity` rejects it with the
loopback reason, not the internal-hostnames reason — the earlier
loopback rule fires first. -/
theorem internal_marker_reason_counterexample :
    jsIncludes (jsToLower wUrlLocalhost.hostname) "localhost" = true ∧
    validateUrlSecurity wUrlLocalhost =
      { valid := false, reason := some "Localhost and loopback addresses are not allowed" } ∧
    ("Localhost and loopback addresses are not allowed" : String) ≠
      "Internal hostnames are not allowed" :=
  ⟨by decide, rfl, by decide⟩

/-- C10 (amended): the internal-hostname rule matches by substring
anywhere in the lower-cased hostname; every http(s) URL whose hostname
contains one of the markers is rejected, and the reason is the
internal-hostnames reason whenever no earlier rule (loopback equality
or `127.` prefix, cloud-metadata equality) already matched. -/
theorem internal_marker_substring_amended (u : URLObj)
    (hp : u.protocol = "http:" ∨ u.protocol = "https:")
    (hsub : internalHostnames.any (fun i => jsIncludes (jsToLower u.hostname) i) = true) :
    (validateUrlSecurity u).valid = false ∧
    (¬(jsToLower u.hostname = "localhost" ∨ jsToLower u.hostname = "127.0.0.1" ∨
        jsToLower u.hostname = "::1" ∨ jsToLower u.hostname = "0.0.0.0" ∨
        jsStartsWith (jsToLower u.hostname) "127." = true ∨
        jsToLower u.hostname = "[::1]") →
      ¬(jsToLower u.hostname = "169.254.169.254" ∨
        jsToLower u.hostname = "metadata.google.internal") →
      validateUrlSecurity u =
        { valid := false, reason := some "Internal hostnames are not allowed" }) := by
  unfold validateUrlSecurity
  rw [if_neg (by rcases hp with hp | hp <;> simp [hp])]
  dsimp only
  by_cases hl : jsToLower u.hostname = "localhost" ∨ jsToLower u.hostname = "127.0.0.1" ∨
      jsToLower u.hostname = "::1" ∨ jsToLower u.hostname = "0.0.0.0" ∨
      jsStartsWith (jsToLower u.hostname) "127." = true ∨ jsToLower u.hostname = "[::1]"
  · rw [if_pos hl]
    exact ⟨rfl, fun hnl _ => absurd hl hnl⟩
  · rw [if_neg hl]
    by_cases hm : jsToLower u.hostname = "169.254.169.254" ∨
        jsToLower u.hostname = "metadata.google.internal"
    · rw [if_pos hm]
      exact ⟨rfl, fun _ hnm => absurd hm hnm⟩
    · rw [if_neg hm, if_pos hsub]
      exact ⟨rfl, fun _ _ => rfl⟩

/-- Witness for `internal_marker_substring_amended`: the public
hostname `a.lanterns.com` contains `.lan` and is rejected with the
internal-hostnames reason. -/
theorem internal_marker_substring_amended_witness :
    validateUrlSecurity wUrlLanterns =
      { valid := false, reason := some "Internal hostnames are not allowed" } :=
  (internal_marker_substring_amended wUrlLanterns (Or.inr rfl) (by decide)).2
    (by decide) (by decide)

theorem charToLower_idem (c : Char) : c.toLower.toLower = c.toLower := by
  have key : ∀ d : Char, (d.toNat < 65 ∨ 90 < d.toNat) → d.toLower = d := by
    intro d hd
    unfold Char.toLower
    rw [if_neg (by omega)]
  by_cases h : c.toNat ≥ 65 ∧ c.toNat ≤ 90
  · have h1 : c.toLower = Char.ofNat (c.toNat + 32) := by
      unfold Char.toLower
      rw [if_pos h]
    have hv : (c.toNat + 32).isValidChar := Or.inl (by omega)
    have ht : (Char.ofNat (c.toNat + 32)).toNat = c.toNat + 32 := by
      unfold Char.ofNat
      rw [dif_pos hv]
      simp [Char.ofNatAux, Char.toNat, UInt32.toNat]
    rw [h1]
    exact key _ (Or.inr (by rw [ht]; omega))
  · have h0 : c.toLower = c := by
      unfold Char.toLower
      rw [if_neg h]
    rw [h0, h0]

theorem jsToLower_idem (s : String) : jsToLower (jsToLower s) = jsToLower s := by
  unfold jsToLower
  have hl : (String.mk (s.toList.map Char.toLower)).toList = s.toList.map Char.toLower := rfl
  rw [hl, List.map_map]
  have hf : Char.toLower ∘ Char.toLower = Char.toLower := funext charToLower_idem
  rw [hf]

theorem strip_of_rev_slash (p : String) (r : List Char)
    (hrev : p.toList.reverse = '/' :: r) :
    stripOneTrailingSlash p = ⟨r.reverse⟩ := by
  unfold stripOneTrailingSlash
  rw [hrev]
  dsimp only
  rw [if_pos rfl]

theorem strip_of_rev_nonslash (p : String) (c : Char) (r : List Char)
    (hrev : p.toList.reverse = c :: r) (hc : ¬c = '/') :
    stripOneTrailingSlash p = p := by
  unfold stripOneTrailingSlash
  rw [hrev]
  dsimp only
  rw [if_neg hc]

theorem strip_of_rev_nil (p : String) (hrev : p.toList.reverse = []) :
    stripOneTrailingSlash p = p := by
  unfold stripOneTrailingSlash
  rw [hrev]

theorem ne_empty_of_rev_cons (p : String) (c : Char) (r : List Char)
    (hrev : p.toList.reverse = c :: r) : ¬p = "" := by
  intro he
  rw [he] at hrev
  simp at hrev

theorem eq_empty_of_rev_nil (p : String) (hrev : p.toList.reverse = []) : p = "" := by
  apply String.ext
  have := congrArg List.reverse hrev
  simpa using this

theorem mk_toList_rev_rev (r : List Char) : (String.mk r.reverse).toList.reverse = r := by
  show r.reverse.reverse = r
  exact List.reverse_reverse r

theorem normalizePathname_idem (p : String) (h : hasDoubleTrailingSlash p = false) :
    normalizePathname (normalizePathname p) = normalizePathname p := by
  rcases hrev : p.toList.reverse with _ | ⟨c, r⟩
  · have hp : p = "" := eq_empty_of_rev_nil p hrev
    rw [hp]
    decide
  · by_cases hc : c = '/'
    · subst hc
      rcases r with _ | ⟨c2, r2⟩
      · -- path is exactly "/": strips to "" and renormalizes to "/"
        have h1 : normalizePathname p = "/" := by
          unfold normalizePathname
          rw [strip_of_rev_slash p [] hrev]
          rfl
        rw [h1]
        decide
      · -- at least one non-slash char before the single trailing slash
        have hc2 : ¬c2 = '/' := by
          unfold hasDoubleTrailingSlash at h
          rw [hrev] at h
          simp at h
          exact h
        have hq : stripOneTrailingSlash p = String.mk ((c2 :: r2).reverse) :=
          strip_of_rev_slash p (c2 :: r2) hrev
        have hqrev : (String.mk ((c2 :: r2).reverse)).toList.reverse = c2 :: r2 :=
          mk_toList_rev_rev (c2 :: r2)
        have hqne : ¬(String.mk ((c2 :: r2).reverse)) = "" :=
          ne_empty_of_rev_cons _ c2 r2 hqrev
        have h1 : normalizePathname p = String.mk ((c2 :: r2).reverse) := by
          unfold normalizePathname
          rw [hq]
          rw [if_neg hqne]
        have h2 : normalizePathname (String.mk ((c2 :: r2).reverse)) =
            String.mk ((c2 :: r2).reverse) := by
          unfold normalizePathname
          rw [strip_of_rev_nonslash _ c2 r2 hqrev hc2]
          rw [if_neg hqne]
        rw [h1, h2]
    · have hpne : ¬p = "" := ne_empty_of_rev_cons p c r hrev
      have h1 : normalizePathname p = p := by
        unfold normalizePathname
        rw [strip_of_rev_nonslash p c r hrev hc]
        rw [if_neg hpne]
      rw [h1, h1]

theorem rev_append_slash (p : String) :
    (p ++ "/").toList.reverse = '/' :: p.toList.reverse := by
  show ((p ++ "/").data).reverse = '/' :: (p.data).reverse
  rw [String.data_append]
  simp

theorem normalizePathname_append_slash (p : String)
    (h : hasDoubleTrailingSlash (p ++ "/") = false) :
    normalizePathname (p ++ "/") = normalizePathname p := by
  have hrev := rev_append_slash p
  have hstrip : stripOneTrailingSlash (p ++ "/") = String.mk (p.toList.reverse.reverse) :=
    strip_of_rev_slash (p ++ "/") p.toList.reverse hrev
  have hmk : String.mk (p.toList.reverse.reverse) = p := by
    apply String.ext
    show p.toList.reverse.reverse = p.data
    simp
  rw [hmk] at hstrip
  rcases hprev : p.toList.reverse with _ | ⟨c, r⟩
  · have hp : p = "" := eq_empty_of_rev_nil p hprev
    rw [hp]
    decide
  · have hc : ¬c = '/' := by
      unfold hasDoubleTrailingSlash at h
      rw [hrev, hprev] at h
      simp at h
      exact h
    have hpne : ¬p = "" := ne_empty_of_rev_cons p c r hprev
    have h1 : normalizePathname (p ++ "/") = p := by
      unfold normalizePathname
      rw [hstrip]
      rw [if_neg hpne]
    have h2 : normalizePathname p = p := by
      unfold normalizePathname
      rw [strip_of_rev_nonslash p c r hprev hc]
      rw [if_neg hpne]
    rw [h1, h2]

theorem sortSearchParams_idem (ps : List (String × String)) :
    sortSearchParams (sortSearchParams ps) = sortSearchParams ps := by
  unfold sortSearchParams
  letI : IsTotal (String × String) (fun a b : String × String => a.1 ≤ b.1) :=
    ⟨fun a b => le_total a.1 b.1⟩
  letI : IsTrans (String × String) (fun a b : String × String => a.1 ≤ b.1) :=
    ⟨fun a b c hab hbc => le_trans hab hbc⟩
  exact (List.sorted_insertionSort _ ps).insertionSort_eq

theorem sortSearchParams_perm_eq (ps qs : List (String × String))
    (hperm : ps.Perm qs) (hnodup : (ps.map Prod.fst).Nodup) :
    sortSearchParams ps = sortSearchParams qs := by
  unfold sortSearchParams
  letI : IsTotal (String × String) (fun a b : String × String => a.1 ≤ b.1) :=
    ⟨fun a b => le_total a.1 b.1⟩
  letI : IsTrans (String × String) (fun a b : String × String => a.1 ≤ b.1) :=
    ⟨fun a b c hab hbc => le_trans hab hbc⟩
  have hps := List.perm_insertionSort (fun a b : String × String => a.1 ≤ b.1) ps
  have hqs := List.perm_insertionSort (fun a b : String × String => a.1 ≤ b.1) qs
  have hpq : (List.insertionSort (fun a b : String × String => a.1 ≤ b.1) ps).Perm
      (List.insertionSort (fun a b : String × String => a.1 ≤ b.1) qs) :=
    (hps.trans hperm).trans hqs.symm
  have hle1 := List.sorted_insertionSort (fun a b : String × String => a.1 ≤ b.1) ps
  have hle2 := List.sorted_insertionSort (fun a b : String × String => a.1 ≤ b.1) qs
  have hnod1 : ((List.insertionSort (fun a b : String × String => a.1 ≤ b.1) ps).map
      Prod.fst).Nodup :=
    ((hps.map Prod.fst).nodup_iff).mpr hnodup
  have hnod2 : ((List.insertionSort (fun a b : String × String => a.1 ≤ b.1) qs).map
      Prod.fst).Nodup := by
    refine ((hqs.map Prod.fst).nodup_iff).mpr ?_
    exact ((hperm.map Prod.fst).nodup_iff).mp hnodup
  have hne1 := List.pairwise_map.mp hnod1
  have hne2 := List.pairwise_map.mp hnod2
  have hlt1 : (List.insertionSort (fun a b : String × String => a.1 ≤ b.1) ps).Pairwise
      (fun a b : String × String => a.1 < b.1) :=
    (hle1.and hne1).imp (fun h => lt_of_le_of_ne h.1 h.2)
  have hlt2 : (List.insertionSort (fun a b : String × String => a.1 ≤ b.1) qs).Pairwise
      (fun a b : String × String => a.1 < b.1) :=
    (hle2.and hne2).imp (fun h => lt_of_le_of_ne h.1 h.2)
  letI : IsAntisymm (String × String) (fun a b : String × String => a.1 < b.1) :=
    ⟨fun a b h1 h2 => absurd h1 (lt_asymm h2)⟩
  exact List.eq_of_perm_of_sorted hpq hlt1 hlt2

/-- C8 counterexample: `normalizeUrl` is not idempotent — on a path
ending in a double slash the regex strips only one slash per pass, so
the first pass yields `.../a/` and the second `.../a`. -/
theorem normalizeUrl_not_idempotent_counterexample :
    urlToString (normalizeUrl (normalizeUrl wUrlDoubleSlash)) ≠
      urlToString (normalizeUrl wUrlDoubleSlash) := by decide

/-- C8 (amended): restricted to URLs whose pathname does not end in two
slashes, `normalizeUrl` is idempotent, and any two such URLs differing
only in a single trailing slash, the fragment, or the order of
query parameters with pairwise-distinct keys serialize to the same
canonical string (lower-cased host, trailing slash stripped with root
path becoming `/`, fragment removed, query parameters sorted by key). -/
theorem normalizeUrl_amended (x y : URLObj)
    (hx : hasDoubleTrailingSlash x.pathname = false)
    (hy : hasDoubleTrailingSlash y.pathname = false)
    (hproto : x.protocol = y.protocol) (hhost : x.hostname = y.hostname)
    (hport : x.port = y.port)
    (hpa : x.pathname = y.pathname ∨ y.pathname = x.pathname ++ "/" ∨
      x.pathname = y.pathname ++ "/")
    (hqperm : x.searchParams.Perm y.searchParams)
    (hnodup : (x.searchParams.map Prod.fst).Nodup) :
    normalizeUrl (normalizeUrl x) = normalizeUrl x ∧
    urlToString (normalizeUrl x) = urlToString (normalizeUrl y) := by
  constructor
  · have hp := normalizePathname_idem x.pathname hx
    have hh := jsToLower_idem x.hostname
    have hs := sortSearchParams_idem x.searchParams
    simp [normalizeUrl, hp, hh, hs]
  · have hpath : normalizePathname x.pathname = normalizePathname y.pathname := by
      rcases hpa with heq | heq | heq
      · rw [heq]
      · rw [heq]
        exact (normalizePathname_append_slash x.pathname (heq ▸ hy)).symm
      · rw [heq]
        exact normalizePathname_append_slash y.pathname (heq ▸ hx)
    have hq : sortSearchParams x.searchParams = sortSearchParams y.searchParams :=
      sortSearchParams_perm_eq _ _ hqperm hnodup
    simp [urlToString, normalizeUrl, hproto, hhost, hport, hpath, hq]

/-- Witness for `normalizeUrl_amended`: an uppercase-host URL with
unsorted query and a fragment, and its trailing-slash variant, meet at
one canonical string. -/
theorem normalizeUrl_amended_witness :
    normalizeUrl (normalizeUrl wUrlA) = normalizeUrl wUrlA ∧
    urlToString (normalizeUrl wUrlA) = urlToString (normalizeUrl wUrlB) :=
  normalizeUrl_amended wUrlA wUrlB (by decide) (by decide) rfl rfl rfl
    (Or.inr (Or.inl (by decide))) (by decide) (by decide)
